import Mathlib

/-! VIC forcing disaggregation: Hermite temperature spline and radiation estimator.

Shallow embedding of `calc_air_temperature.c` (`hermite`, `hermint`, `HourlyT`)
and `calc_long_shortwave.c` (`calc_long_shortwave`).

Conventions of the embedding.

* `double` values are elements of an arbitrary linearly ordered field `α`
  (exact arithmetic); every definition is computable, e.g. at `α := ℚ`.
* A C array (`double *`, `int *`) is a function from indices to values, a store
  to `a[i]` is `Function.update a i v`.
* `int` indices and counters are unbounded naturals / integers.
* The functions of `<math.h>` are a parameter (`Libm`), the macros of `vicNl.h`
  (`HOURSPERDAY`, `PI`, `SOLARTIMEOFFSET`, `STEFAN_B`, `KELVIN`, `LWAVE_COR`) are
  parameters as well, since the header is not part of the listed sources.
-/

namespace VIC

section Spline

variable {α : Type} [LinearOrderedField α]

/-- Body of the `for` loop of `hermite` at index `i`: the stores to `yc3[i]` and
`yc4[i]`. The pair is the current contents of `(yc3, yc4)`. -/
def hermite.body (x yc1 yc2 : Nat → α) (c : (Nat → α) × (Nat → α)) (i : Nat) :
    (Nat → α) × (Nat → α) :=
  let dx := x (i + 1) - x i
  let divdf1 := (yc1 (i + 1) - yc1 i) / dx
  let divdf3 := yc2 i + yc2 (i + 1) - 2 * divdf1
  (Function.update c.1 i ((divdf1 - yc2 i - divdf3) / dx),
   Function.update c.2 i (divdf3 / (dx * dx)))

/-- The C function `hermite`: `for (i = 0; i < n-1; i++)` over the loop body. The
result is the final contents of the output arrays `(yc3, yc4)`. -/
def hermite (n : Nat) (x yc1 yc2 yc3 yc4 : Nat → α) : (Nat → α) × (Nat → α) :=
  (List.range (n - 1)).foldl (hermite.body x yc1 yc2) (yc3, yc4)

/-- The third-order coefficient that `hermite` stores in `yc3[i]`. -/
def coef3 (x yc1 yc2 : Nat → α) (i : Nat) : α :=
  ((yc1 (i + 1) - yc1 i) / (x (i + 1) - x i) - yc2 i
    - (yc2 i + yc2 (i + 1) - 2 * ((yc1 (i + 1) - yc1 i) / (x (i + 1) - x i))))
    / (x (i + 1) - x i)

/-- The fourth-order coefficient that `hermite` stores in `yc4[i]`. -/
def coef4 (x yc1 yc2 : Nat → α) (i : Nat) : α :=
  (yc2 i + yc2 (i + 1) - 2 * ((yc1 (i + 1) - yc1 i) / (x (i + 1) - x i)))
    / ((x (i + 1) - x i) * (x (i + 1) - x i))

/-- The `while (khi-klo > 1)` loop of `hermint`, returning the final `(klo, khi)`. -/
def hermint.search (x : Nat → α) (xbar : α) (klo khi : Nat) : Nat × Nat :=
  if khi - klo > 1 then
    let k := (khi + klo) >>> 1
    if x k > xbar then hermint.search x xbar klo k
    else hermint.search x xbar k khi
  else (klo, khi)
termination_by khi - klo
decreasing_by
  all_goals simp_wf
  all_goals simp only [Nat.shiftRight_eq_div_pow] at *
  all_goals omega

/-- The C function `hermint`. -/
def hermint (xbar : α) (n : Nat) (x yc1 yc2 yc3 yc4 : Nat → α) : α :=
  let klo := (hermint.search x xbar 0 (n - 1)).1
  let dx := xbar - x klo
  yc1 klo + dx * (yc2 klo + dx * (yc3 klo + dx * yc4 klo))

/-- The conversion `(int)(0.5 * k)` of C for an `int` value `k`: the product is
exact in `double`, the conversion to `int` truncates toward zero. -/
def truncHalf (k : Int) : Int := Int.tdiv k 2

/-- Loop state of the first `for` loop of `HourlyT`: the counter `j`, the running
`hour` offset and the arrays `x` and `Tyc1`. -/
structure HourlyT.Fill (α : Type) where
  j : Nat
  hour : Int
  x : Nat → α
  Tyc1 : Nat → α

/-- Body of the first loop of `HourlyT` for day `i`, followed by the increment
`hour += HOURSPERDAY`. -/
def HourlyT.fillBody (HOURSPERDAY : Int) (TmaxHour : Nat → Int) (Tmax : Nat → α)
    (TminHour : Nat → Int) (Tmin : Nat → α) (s : HourlyT.Fill α) (i : Nat) :
    HourlyT.Fill α :=
  if TminHour i < TmaxHour i then
    let x1 := Function.update s.x s.j (((TminHour i + s.hour : Int)) : α)
    let y1 := Function.update s.Tyc1 s.j (Tmin i)
    let x2 := Function.update x1 (s.j + 1) (((TmaxHour i + s.hour : Int)) : α)
    let y2 := Function.update y1 (s.j + 1) (Tmax i)
    { j := s.j + 2, hour := s.hour + HOURSPERDAY, x := x2, Tyc1 := y2 }
  else
    let x1 := Function.update s.x s.j (((TmaxHour i + s.hour : Int)) : α)
    let y1 := Function.update s.Tyc1 s.j (Tmax i)
    let x2 := Function.update x1 (s.j + 1) (((TminHour i + s.hour : Int)) : α)
    let y2 := Function.update y1 (s.j + 1) (Tmin i)
    { j := s.j + 2, hour := s.hour + HOURSPERDAY, x := x2, Tyc1 := y2 }

/-- The knot arrays `x` and `Tyc1` of `HourlyT` after the first loop
(`for (i = 0, j = 0, hour = 0.5 * Dt; i < 3; i++, hour += HOURSPERDAY)`), starting
from the zeroed arrays returned by `calloc`. -/
def HourlyT.knots (HOURSPERDAY Dt : Int) (TmaxHour : Nat → Int) (Tmax : Nat → α)
    (TminHour : Nat → Int) (Tmin : Nat → α) : HourlyT.Fill α :=
  (List.range 3).foldl (HourlyT.fillBody HOURSPERDAY TmaxHour Tmax TminHour Tmin)
    { j := 0, hour := truncHalf Dt, x := fun _ => 0, Tyc1 := fun _ => 0 }

/-- The array `yc2` of `HourlyT` after `for (i = 0; i < n; i++) yc2[i] = 0.;`. -/
def HourlyT.yc2 (n : Nat) : Nat → α :=
  (List.range n).foldl (fun a i => Function.update a i 0) (fun _ => 0)

/-- Body of the interpolation loop of `HourlyT`: the store to `Tair[i]` followed by
`hour += Dt`. The state is `(hour, Tair)`. -/
def HourlyT.sampleBody (Dt : Int) (n : Nat) (x Tyc1 yc2 yc3 yc4 : Nat → α)
    (s : Int × (Nat → α)) (i : Nat) : Int × (Nat → α) :=
  (s.1 + Dt, Function.update s.2 i (hermint ((s.1 : Int) : α) n x Tyc1 yc2 yc3 yc4))

/-- The C function `HourlyT`; the result is the final contents of `Tair`. The
initial value of `hour` in the interpolation loop is `(int)(0.5*Dt+HOURSPERDAY)`,
which is `(int)(0.5 * (Dt + 2*HOURSPERDAY))`. -/
def HourlyT (HOURSPERDAY Dt : Int) (TmaxHour : Nat → Int) (Tmax : Nat → α)
    (TminHour : Nat → Int) (Tmin : Nat → α) (Tair : Nat → α) : Nat → α :=
  let nHours := HOURSPERDAY
  let n := 6
  let s := HourlyT.knots HOURSPERDAY Dt TmaxHour Tmax TminHour Tmin
  let yc2 : Nat → α := HourlyT.yc2 n
  let c := hermite n s.x s.Tyc1 yc2 (fun _ => 0) (fun _ => 0)
  ((List.range nHours.toNat).foldl (HourlyT.sampleBody Dt n s.x s.Tyc1 yc2 c.1 c.2)
    (truncHalf (Dt + 2 * HOURSPERDAY), Tair)).2

/-- Loop state of the first loop of `HourlyT` in the variant where the offset `hour`
is held in a `double` instead of an `int`. -/
structure HourlyT.FillReal (α : Type) where
  j : Nat
  hour : α
  x : Nat → α
  Tyc1 : Nat → α

/-- The body of the first loop of `HourlyT` with a `double` offset `hour`. -/
def HourlyT.fillBodyReal (HOURSPERDAY : Int) (TmaxHour : Nat → Int) (Tmax : Nat → α)
    (TminHour : Nat → Int) (Tmin : Nat → α) (s : HourlyT.FillReal α) (i : Nat) :
    HourlyT.FillReal α :=
  if TminHour i < TmaxHour i then
    let x1 := Function.update s.x s.j ((TminHour i : α) + s.hour)
    let y1 := Function.update s.Tyc1 s.j (Tmin i)
    let x2 := Function.update x1 (s.j + 1) ((TmaxHour i : α) + s.hour)
    let y2 := Function.update y1 (s.j + 1) (Tmax i)
    { j := s.j + 2, hour := s.hour + (HOURSPERDAY : α), x := x2, Tyc1 := y2 }
  else
    let x1 := Function.update s.x s.j ((TmaxHour i : α) + s.hour)
    let y1 := Function.update s.Tyc1 s.j (Tmax i)
    let x2 := Function.update x1 (s.j + 1) ((TminHour i : α) + s.hour)
    let y2 := Function.update y1 (s.j + 1) (Tmin i)
    { j := s.j + 2, hour := s.hour + (HOURSPERDAY : α), x := x2, Tyc1 := y2 }

/-- The knot arrays of the variant of `HourlyT` whose first loop starts from the
`double` offset `off` in place of `(int)(0.5 * Dt)`. -/
def HourlyT.knotsReal (off : α) (HOURSPERDAY : Int) (TmaxHour : Nat → Int)
    (Tmax : Nat → α) (TminHour : Nat → Int) (Tmin : Nat → α) : HourlyT.FillReal α :=
  (List.range 3).foldl (HourlyT.fillBodyReal HOURSPERDAY TmaxHour Tmax TminHour Tmin)
    { j := 0, hour := off, x := fun _ => 0, Tyc1 := fun _ => 0 }

/-- The body of the interpolation loop of `HourlyT` with a `double` query time. -/
def HourlyT.sampleBodyReal (Dt : Int) (n : Nat) (x Tyc1 yc2 yc3 yc4 : Nat → α)
    (s : α × (Nat → α)) (i : Nat) : α × (Nat → α) :=
  (s.1 + (Dt : α), Function.update s.2 i (hermint s.1 n x Tyc1 yc2 yc3 yc4))

/-- The variant of `HourlyT` compared with the C function in the offset-invariance
property: the variable `hour` is a `double`, the first loop starts from the offset
`off` and the interpolation loop from `off + HOURSPERDAY`. With `off = Dt/2` this is
the routine with the untruncated half step. -/
def HourlyT_with_offset (off : α) (HOURSPERDAY Dt : Int) (TmaxHour : Nat → Int)
    (Tmax : Nat → α) (TminHour : Nat → Int) (Tmin : Nat → α) (Tair : Nat → α) : Nat → α :=
  let nHours := HOURSPERDAY
  let n := 6
  let s := HourlyT.knotsReal off HOURSPERDAY TmaxHour Tmax TminHour Tmin
  let yc2 : Nat → α := HourlyT.yc2 n
  let c := hermite n s.x s.Tyc1 yc2 (fun _ => 0) (fun _ => 0)
  ((List.range nHours.toNat).foldl (HourlyT.sampleBodyReal Dt n s.x s.Tyc1 yc2 c.1 c.2)
    (off + (HOURSPERDAY : α), Tair)).2

end Spline

section Radiation

variable {α : Type} [LinearOrderedField α]

/-- The functions of `<math.h>` used by `calc_long_shortwave`, and the conversion
`(float)` of a `double`. -/
structure Libm (α : Type) where
  cos : α → α
  sin : α → α
  asin : α → α
  exp : α → α
  log10 : α → α
  pow : α → α → α
  sqrt : α → α
  toFloat : α → α

/-- The macros of `vicNl.h` used by `calc_long_shortwave`. -/
structure Consts (α : Type) where
  PI : α
  SOLARTIMEOFFSET : α
  STEFAN_B : α
  KELVIN : α
  LWAVE_COR : α

/-- The memory read and written by `calc_long_shortwave`: the three in/out slots
`*shortwave`, `*longwave`, `*tskc` and the function-local `static double last_tskc`. -/
structure Rad (α : Type) where
  shortwave : α
  longwave : α
  tskc : α
  last_tskc : α

/-- The hour angle `tau` of `calc_long_shortwave` (source lines 55-69); `hour` is
the argument before `hour = hour - SOLARTIMEOFFSET`. -/
def calc_long_shortwave.tau (M : Libm α) (K : Consts α) (theta_l theta_s hour : α) : α :=
  let hour := hour - K.SOLARTIMEOFFSET
  let i_var : α := if |theta_l| = theta_l then 1.0 else -1.0
  if (M.toFloat hour > (12. + (theta_l - theta_s) * 24. / 360.)
      ∧ M.toFloat hour < (24. + (theta_l - theta_s) * 24. / 360.))
      ∨ (M.toFloat hour < (0. + (theta_l - theta_s) * 24. / 360.)) then
    (hour - 12.0 - (i_var / 15.0 * (|theta_s| - |theta_l|))) * 15.0
  else (hour + 12.0 - (i_var / 15.0 * (|theta_s| - |theta_l|))) * 15.0

/-- The value `sin_alpha` of `calc_long_shortwave` (source lines 57-58, 70-71). -/
def calc_long_shortwave.sin_alpha (M : Libm α) (K : Consts α)
    (theta_l theta_s phi jdate hour : α) : α :=
  let declination := 23.45 * K.PI / 180.0 * M.cos (2.0 * K.PI / 365.0 * (172.0 - jdate))
  let tau := calc_long_shortwave.tau M K theta_l theta_s hour
  M.sin declination * M.sin (phi * K.PI / 180.0)
    + M.cos declination * M.cos (phi * K.PI / 180.0) * M.cos (tau * K.PI / 180.0)

/-- The value `I0` of `calc_long_shortwave` (source lines 72-73). -/
def calc_long_shortwave.I0 (M : Libm α) (K : Consts α)
    (theta_l theta_s phi jdate hour : α) : α :=
  let sin_alpha := calc_long_shortwave.sin_alpha M K theta_l theta_s phi jdate hour
  let radius := 1.0 + 0.017 * M.cos (2 * K.PI / 365 * (186 - jdate))
  1353.0 * sin_alpha / radius / radius

/-- The clear-sky value `Ic` of `calc_long_shortwave` as computed at source lines
77-78, before the override `if(HAVE_SHORTWAVE) Ic = I0`. -/
def calc_long_shortwave.Ic (M : Libm α) (sin_alpha I0 : α) : α :=
  let m := M.pow (sin_alpha + 0.15 * M.pow (M.asin sin_alpha + 3.885) (-1.253)) (-1.)
  I0 * M.exp (-2.0 * (0.128 - 0.054 * M.log10 m) * m)

/-- The right-hand side of the store to `*shortwave` at source line 83. -/
def calc_long_shortwave.sw_of_tskc (tskc Ic : α) : α :=
  (1.0 - 0.65 * (tskc * tskc) / 100.) * Ic

/-- The right-hand side of the store to `*tskc` at source line 98. -/
def calc_long_shortwave.tskc_of_sw (M : Libm α) (shortwave Ic : α) : α :=
  M.sqrt ((1.0 - shortwave / Ic) / 0.65)

/-- The right-hand side of the four stores to `*longwave` (source lines 89-91,
100-102, 108-110 and 121-123, which are the same expression). -/
def calc_long_shortwave.lw (M : Libm α) (K : Consts α) (tskc vp air_temp : α) : α :=
  (1.0 + 0.17 * tskc * tskc) * (0.740 + 0.0049 * vp * 10.0) * K.STEFAN_B
    * M.pow (air_temp + K.KELVIN) 4.0 / K.LWAVE_COR

/-- The C function `calc_long_shortwave`. `s` is the memory before the call; the
result is the memory after it, or `Except.error` when `nrerror` is called (which
terminates the program). -/
def calc_long_shortwave (M : Libm α) (K : Consts α) (s : Rad α)
    (air_temp vp theta_l theta_s phi jdate hour : α)
    (HAVE_SHORTWAVE HAVE_LONGWAVE HAVE_TSKC : Bool) : Except String (Rad α) :=
  let sin_alpha := calc_long_shortwave.sin_alpha M K theta_l theta_s phi jdate hour
  let I0 := calc_long_shortwave.I0 M K theta_l theta_s phi jdate hour
  let shortwave : α :=
    if HAVE_SHORTWAVE = false ∨ (HAVE_SHORTWAVE = true ∧ s.shortwave < 0.0) then 0.
    else s.shortwave
  if I0 > 0.0 then
    let Ic := calc_long_shortwave.Ic M sin_alpha I0
    let Ic := if HAVE_SHORTWAVE = true then I0 else Ic
    if HAVE_SHORTWAVE = false ∧ HAVE_TSKC = true then
      let shortwave := calc_long_shortwave.sw_of_tskc s.tskc Ic
      let shortwave := if shortwave < 0.0 then 0.0 else shortwave
      let longwave :=
        if HAVE_LONGWAVE = false then calc_long_shortwave.lw M K s.tskc vp air_temp
        else s.longwave
      Except.ok { shortwave := shortwave, longwave := longwave, tskc := s.tskc,
                  last_tskc := s.last_tskc }
    else if HAVE_SHORTWAVE = true ∧ HAVE_LONGWAVE = false then
      if shortwave < Ic then
        let tskc := calc_long_shortwave.tskc_of_sw M shortwave Ic
        Except.ok { shortwave := shortwave,
                    longwave := calc_long_shortwave.lw M K tskc vp air_temp,
                    tskc := tskc, last_tskc := tskc }
      else
        let tskc := s.last_tskc
        Except.ok { shortwave := shortwave,
                    longwave := calc_long_shortwave.lw M K tskc vp air_temp,
                    tskc := tskc, last_tskc := s.last_tskc }
    else
      Except.error "ERROR: To compute long and shortwave radiation, need TSKC (cloud cover fraction), or measured shortwave"
  else
    let shortwave := if HAVE_SHORTWAVE = false then 0.0 else shortwave
    let tskc :=
      if HAVE_SHORTWAVE = false then s.tskc
      else if HAVE_SHORTWAVE = true ∧ HAVE_TSKC = false then s.last_tskc
      else s.tskc
    let longwave :=
      if HAVE_LONGWAVE = false then calc_long_shortwave.lw M K tskc vp air_temp
      else s.longwave
    Except.ok { shortwave := shortwave, longwave := longwave, tskc := tskc,
                last_tskc := s.last_tskc }

end Radiation

/-! ## The Hermite spline: `hermite` and `hermint` -/

section SplineProofs

variable {α : Type} [LinearOrderedField α]

theorem hermite_fold (x yc1 yc2 yc3 yc4 : Nat → α) (m : Nat) :
    ((List.range m).foldl (hermite.body x yc1 yc2) (yc3, yc4)).1
        = (fun i => if i < m then coef3 x yc1 yc2 i else yc3 i)
      ∧ ((List.range m).foldl (hermite.body x yc1 yc2) (yc3, yc4)).2
        = (fun i => if i < m then coef4 x yc1 yc2 i else yc4 i) := by
  induction m with
  | zero => simp
  | succ m ih =>
    rw [List.range_succ, List.foldl_append]
    simp only [List.foldl_cons, List.foldl_nil, hermite.body, ih.1, ih.2]
    constructor
    · funext i
      by_cases h : i = m
      · subst h; simp [coef3]
      · rw [Function.update_noteq h]
        by_cases h1 : i < m
        · simp [h1, Nat.lt_succ_of_lt h1]
        · have : ¬ i < m + 1 := by omega
          simp [h1, this]
    · funext i
      by_cases h : i = m
      · subst h; simp [coef4]
      · rw [Function.update_noteq h]
        by_cases h1 : i < m
        · simp [h1, Nat.lt_succ_of_lt h1]
        · have : ¬ i < m + 1 := by omega
          simp [h1, this]

/-- Contents of `yc3` after `hermite`: entries `0..n-2` hold the coefficient, the
others are untouched. -/
theorem hermite_yc3 (n : Nat) (x yc1 yc2 yc3 yc4 : Nat → α) (i : Nat) :
    (hermite n x yc1 yc2 yc3 yc4).1 i = if i < n - 1 then coef3 x yc1 yc2 i else yc3 i := by
  unfold hermite
  rw [(hermite_fold x yc1 yc2 yc3 yc4 (n - 1)).1]

/-- Contents of `yc4` after `hermite`. -/
theorem hermite_yc4 (n : Nat) (x yc1 yc2 yc3 yc4 : Nat → α) (i : Nat) :
    (hermite n x yc1 yc2 yc3 yc4).2 i = if i < n - 1 then coef4 x yc1 yc2 i else yc4 i := by
  unfold hermite
  rw [(hermite_fold x yc1 yc2 yc3 yc4 (n - 1)).2]

/-- The cubic of a segment takes the value of the right knot at the right end. -/
theorem cubic_right_value (x yc1 yc2 : Nat → α) (i : Nat) (hdx : x (i + 1) - x i ≠ 0) :
    yc1 i + (x (i + 1) - x i) * (yc2 i + (x (i + 1) - x i)
      * (coef3 x yc1 yc2 i + (x (i + 1) - x i) * coef4 x yc1 yc2 i)) = yc1 (i + 1) := by
  unfold coef3 coef4
  field_simp
  ring

/-- Loop invariant of the bisection in `hermint`, for arbitrary predicates `P` on the
lower and `Q` on the upper index: the loop ends with adjacent indices that still
satisfy them. -/
theorem search_invariant (x : Nat → α) (xbar : α) (P Q : Nat → Prop)
    (hP : ∀ k, x k ≤ xbar → P k) (hQ : ∀ k, xbar < x k → Q k) (hi0 : Nat) :
    ∀ d klo khi, khi - klo ≤ d → klo < khi → khi ≤ hi0 → P klo → Q khi →
      (hermint.search x xbar klo khi).2 = (hermint.search x xbar klo khi).1 + 1
        ∧ (hermint.search x xbar klo khi).2 ≤ hi0
        ∧ P (hermint.search x xbar klo khi).1 ∧ Q (hermint.search x xbar klo khi).2 := by
  intro d
  induction d with
  | zero => intro klo khi h1 h2; omega
  | succ d ih =>
    intro klo khi hd hlt hle hPlo hQhi
    rw [hermint.search]
    by_cases hgap : khi - klo > 1
    · have hk1 : klo < (khi + klo) >>> 1 := by
        simp only [Nat.shiftRight_eq_div_pow]; omega
      have hk2 : (khi + klo) >>> 1 < khi := by
        simp only [Nat.shiftRight_eq_div_pow]; omega
      simp only [hgap, if_true]
      by_cases hx : x ((khi + klo) >>> 1) > xbar
      · simp only [hx, if_true]
        exact ih klo _ (by omega) hk1 (by omega) hPlo (hQ _ hx)
      · simp only [hx, if_false]
        exact ih _ khi (by omega) hk2 hle (hP _ (not_lt.mp hx)) hQhi
    · simp only [hgap, if_false]
      exact ⟨by omega, hle, hPlo, hQhi⟩

/-- Bracketing by the bisection of `hermint` for `n ≥ 2` knots: the segment index
`klo` is at most `n-2`, its knot is not after `xbar` unless `klo = 0`, and the next
knot is after `xbar` unless `klo = n-2`. -/
theorem search_bracket (x : Nat → α) (xbar : α) (n : Nat) (hn : 2 ≤ n) :
    (hermint.search x xbar 0 (n - 1)).1 + 1 ≤ n - 1
      ∧ ((hermint.search x xbar 0 (n - 1)).1 = 0
          ∨ x (hermint.search x xbar 0 (n - 1)).1 ≤ xbar)
      ∧ ((hermint.search x xbar 0 (n - 1)).1 + 1 = n - 1
          ∨ xbar < x ((hermint.search x xbar 0 (n - 1)).1 + 1)) := by
  have h := search_invariant x xbar (fun k => k = 0 ∨ x k ≤ xbar)
    (fun k => k = n - 1 ∨ xbar < x k) (fun k hk => Or.inr hk) (fun k hk => Or.inr hk)
    (n - 1) (n - 1) 0 (n - 1) (by omega) (by omega) le_rfl (Or.inl rfl) (Or.inl rfl)
  obtain ⟨h1, h2, h3, h4⟩ := h
  rw [h1] at h2 h4
  exact ⟨h2, h3, h4⟩

/-- On strictly increasing knots the order of two knot times gives the order of
their indices. -/
theorem index_le_of_knot_le (n : Nat) (x : Nat → α)
    (hx : ∀ i j, i < j → j < n → x i < x j) (i j : Nat) (hi : i < n)
    (h : x i ≤ x j) : i ≤ j := by
  by_contra hc
  exact absurd (hx j i (by omega) hi) (not_lt.mpr h)

/-- The segment chosen by `hermint` for a query at knot `i`: segment `i`, or the last
segment `n-2` for the last knot. -/
theorem search_at_knot (n : Nat) (hn : 2 ≤ n) (x : Nat → α)
    (hx : ∀ i j, i < j → j < n → x i < x j) (i : Nat) (hi : i < n) :
    (hermint.search x (x i) 0 (n - 1)).1 = min i (n - 2) := by
  obtain ⟨h1, h2, h3⟩ := search_bracket x (x i) n hn
  generalize (hermint.search x (x i) 0 (n - 1)).1 = klo at h1 h2 h3
  have hlo : klo ≤ i := by
    rcases h2 with h2 | h2
    · omega
    · exact index_le_of_knot_le n x hx klo i (by omega) h2
  have hhi : klo + 1 = n - 1 ∨ i < klo + 1 := by
    rcases h3 with h3 | h3
    · exact Or.inl h3
    · right
      by_contra hc
      have : klo + 1 ≤ i := by omega
      rcases Nat.eq_or_lt_of_le this with h | h
      · rw [h] at h3; exact lt_irrefl _ h3
      · exact absurd (hx (klo + 1) i h hi) (not_lt.mpr h3.le)
  rcases hhi with h | h
  · rw [Nat.min_def]; split <;> omega
  · rw [Nat.min_def]; split <;> omega

/-- Value of `hermint` at the time of a knot, with the coefficients of `hermite`. -/
theorem hermint_at_knot (n : Nat) (hn : 2 ≤ n) (x y d c3 c4 : Nat → α)
    (hx : ∀ i j, i < j → j < n → x i < x j) (i : Nat) (hi : i < n) :
    hermint (x i) n x y d (hermite n x y d c3 c4).1 (hermite n x y d c3 c4).2 = y i := by
  unfold hermint
  simp only [search_at_knot n hn x hx i hi]
  by_cases hlast : i ≤ n - 2
  · rw [Nat.min_eq_left hlast]
    simp
  · have hi' : i = (n - 2) + 1 := by omega
    have hmin : min i (n - 2) = n - 2 := Nat.min_eq_right (by omega)
    rw [hmin, hermite_yc3, hermite_yc4, if_pos (by omega), if_pos (by omega), hi']
    have hdx : x (n - 2 + 1) - x (n - 2) ≠ 0 :=
      sub_ne_zero.mpr (ne_of_gt (hx (n - 2) (n - 2 + 1) (by omega) (by omega)))
    exact cubic_right_value x y d (n - 2) hdx

/-- C1. Interpolation exactness: for `n ≥ 2` strictly increasing knot times `x`,
values `y`, derivatives `d` and the coefficients computed by `hermite` (whatever the
output arrays held before), `hermint` evaluated at the time of knot `i`, for every
`i` in `0..n-1` including the last knot, returns `y[i]`. -/
theorem hermint_interpolates (n : Nat) (hn : 2 ≤ n) (x y d c3 c4 : Nat → α)
    (hx : ∀ i j, i < j → j < n → x i < x j) (i : Nat) (hi : i < n) :
    hermint (x i) n x y d (hermite n x y d c3 c4).1 (hermite n x y d c3 c4).2 = y i :=
  hermint_at_knot n hn x y d c3 c4 hx i hi

/-- Witness for C1: three knots at times 0, 1, 2 with values 0, 1, 4 over the
rationals, queried at the last knot. -/
theorem hermint_interpolates_witness :
    hermint ((fun k : Nat => (k : ℚ)) 2) 3 (fun k => (k : ℚ)) (fun k => (k : ℚ) * k)
        (fun _ => 0)
        (hermite 3 (fun k => (k : ℚ)) (fun k => (k : ℚ) * k) (fun _ => 0)
          (fun _ => 0) (fun _ => 0)).1
        (hermite 3 (fun k => (k : ℚ)) (fun k => (k : ℚ) * k) (fun _ => 0)
          (fun _ => 0) (fun _ => 0)).2
      = (fun k : Nat => (k : ℚ) * k) 2 :=
  hermint_interpolates 3 (by decide) (fun k => (k : ℚ)) (fun k => (k : ℚ) * k)
    (fun _ => 0) (fun _ => 0) (fun _ => 0)
    (fun i j hij _ => Nat.cast_lt.mpr hij) 2 (by decide)

/-- Monotonicity of strictly increasing knots in the non-strict form. -/
theorem knot_le_of_index_le (n : Nat) (x : Nat → α)
    (hx : ∀ i j, i < j → j < n → x i < x j) (i j : Nat) (hij : i ≤ j) (hj : j < n) :
    x i ≤ x j := by
  rcases Nat.eq_or_lt_of_le hij with h | h
  · rw [h]
  · exact (hx i j h hj).le

/-- Uniqueness of the bracketing segment: on strictly increasing knots, a segment
`k ≤ n-2` whose knot is not after `xbar` (or `k = 0`) and whose next knot is after
`xbar` (or `k = n-2`) is the one found by the bisection. -/
theorem search_eq_of_bracket (n : Nat) (hn : 2 ≤ n) (x : Nat → α)
    (hx : ∀ i j, i < j → j < n → x i < x j) (xbar : α) (k : Nat) (hk : k ≤ n - 2)
    (h1 : k = 0 ∨ x k ≤ xbar) (h2 : k = n - 2 ∨ xbar < x (k + 1)) :
    (hermint.search x xbar 0 (n - 1)).1 = k := by
  obtain ⟨b1, b2, b3⟩ := search_bracket x xbar n hn
  generalize (hermint.search x xbar 0 (n - 1)).1 = klo at b1 b2 b3
  rcases Nat.lt_trichotomy klo k with h | h | h
  · exfalso
    have hb3 : xbar < x (klo + 1) := by
      rcases b3 with b3 | b3
      · omega
      · exact b3
    have hh1 : x k ≤ xbar := by
      rcases h1 with h1 | h1
      · omega
      · exact h1
    have := knot_le_of_index_le n x hx (klo + 1) k (by omega) (by omega)
    exact absurd (lt_of_lt_of_le hb3 this) (not_lt.mpr hh1)
  · exact h
  · exfalso
    have hb2 : x klo ≤ xbar := by
      rcases b2 with b2 | b2
      · omega
      · exact b2
    have hh2 : xbar < x (k + 1) := by
      rcases h2 with h2 | h2
      · omega
      · exact h2
    have := knot_le_of_index_le n x hx (k + 1) klo (by omega) (by omega)
    exact absurd (lt_of_lt_of_le hh2 this) (not_lt.mpr hb2)

/-- On the bracketing segment `k`, `hermint` with the coefficients of `hermite` is the
cubic of segment `k`. -/
theorem hermint_eq_piece (n : Nat) (hn : 2 ≤ n) (x y d c3 c4 : Nat → α)
    (hx : ∀ i j, i < j → j < n → x i < x j) (xbar : α) (k : Nat) (hk : k ≤ n - 2)
    (h1 : k = 0 ∨ x k ≤ xbar) (h2 : k = n - 2 ∨ xbar < x (k + 1)) :
    hermint xbar n x y d (hermite n x y d c3 c4).1 (hermite n x y d c3 c4).2
      = y k + (xbar - x k) * (d k + (xbar - x k)
          * (coef3 x y d k + (xbar - x k) * coef4 x y d k)) := by
  unfold hermint
  simp only [search_eq_of_bracket n hn x hx xbar k hk h1 h2, hermite_yc3, hermite_yc4]
  rw [if_pos (by omega), if_pos (by omega)]

/-- The derivative of the cubic of a segment takes the derivative of the right knot at
the right end. -/
theorem cubic_right_slope (x yc1 yc2 : Nat → α) (i : Nat) (hdx : x (i + 1) - x i ≠ 0) :
    yc2 i + (x (i + 1) - x i) * (2 * coef3 x yc1 yc2 i
      + (x (i + 1) - x i) * (3 * coef4 x yc1 yc2 i)) = yc2 (i + 1) := by
  unfold coef3 coef4
  field_simp
  ring

end SplineProofs

/-! ## Smoothness of the interpolant over the reals -/

section SplineAnalysis

open Filter Topology Set

/-- Derivative of a cubic in Horner form around `s`. -/
theorem cubic_hasDerivAt (a b c e s t0 : ℝ) :
    HasDerivAt (fun t => a + (t - s) * (b + (t - s) * (c + (t - s) * e)))
      (b + (t0 - s) * (2 * c + (t0 - s) * (3 * e))) t0 := by
  have h0 : HasDerivAt (fun t : ℝ => t - s) 1 t0 := (hasDerivAt_id t0).sub_const s
  have h := ((h0.mul (((h0.mul (((h0.mul_const e).const_add c))).const_add b))).const_add a)
  convert h using 1
  ring

/-- A function which agrees with `gl` just left of `a` and with `gr` just right of
`a`, both differentiable at `a` with the same derivative, is differentiable at `a`. -/
theorem glue_hasDerivAt (f gl gr : ℝ → ℝ) (a lo hi f' : ℝ) (hlo : lo < a) (hhi : a < hi)
    (hl : ∀ t, lo < t → t ≤ a → f t = gl t) (hr : ∀ t, a ≤ t → t < hi → f t = gr t)
    (dl : HasDerivAt gl f' a) (dr : HasDerivAt gr f' a) : HasDerivAt f f' a := by
  have e1 : HasDerivWithinAt f f' (Iic a) a := by
    refine dl.hasDerivWithinAt.congr_of_eventuallyEq ?_ (hl a hlo le_rfl)
    filter_upwards [self_mem_nhdsWithin, mem_nhdsWithin_of_mem_nhds (Ioi_mem_nhds hlo)]
      with t ht1 ht2
    exact hl t ht2 ht1
  have e2 : HasDerivWithinAt f f' (Ici a) a := by
    refine dr.hasDerivWithinAt.congr_of_eventuallyEq ?_ (hr a le_rfl hhi)
    filter_upwards [self_mem_nhdsWithin, mem_nhdsWithin_of_mem_nhds (Iio_mem_nhds hhi)]
      with t ht1 ht2
    exact hr t ht1 ht2
  have := e1.union e2
  rwa [Iic_union_Ici, hasDerivWithinAt_univ] at this

/-- A function which agrees with `gl` just left of `a` and with `gr` just right of
`a`, both continuous at `a`, is continuous at `a`. -/
theorem glue_continuousAt (f gl gr : ℝ → ℝ) (a lo hi : ℝ) (hlo : lo < a) (hhi : a < hi)
    (hl : ∀ t, lo < t → t ≤ a → f t = gl t) (hr : ∀ t, a ≤ t → t < hi → f t = gr t)
    (cl : ContinuousAt gl a) (cr : ContinuousAt gr a) : ContinuousAt f a := by
  rw [continuousAt_iff_continuous_left_right]
  constructor
  · refine cl.continuousWithinAt.congr_of_eventuallyEq ?_ (hl a hlo le_rfl)
    filter_upwards [self_mem_nhdsWithin, mem_nhdsWithin_of_mem_nhds (Ioi_mem_nhds hlo)]
      with t ht1 ht2
    exact hl t ht2 ht1
  · refine cr.continuousWithinAt.congr_of_eventuallyEq ?_ (hr a le_rfl hhi)
    filter_upwards [self_mem_nhdsWithin, mem_nhdsWithin_of_mem_nhds (Iio_mem_nhds hhi)]
      with t ht1 ht2
    exact hr t ht1 ht2

/-- The cubic of segment `k` has derivative `d[k]` at its left knot. -/
theorem piece_hasDerivAt_left (x y d : Nat → ℝ) (k : Nat) :
    HasDerivAt (fun t => y k + (t - x k) * (d k + (t - x k)
        * (coef3 x y d k + (t - x k) * coef4 x y d k))) (d k) (x k) := by
  have h := cubic_hasDerivAt (y k) (d k) (coef3 x y d k) (coef4 x y d k) (x k) (x k)
  convert h using 1
  ring

/-- The cubic of segment `k` has derivative `d[k+1]` at its right knot. -/
theorem piece_hasDerivAt_right (x y d : Nat → ℝ) (k : Nat) (hdx : x (k + 1) - x k ≠ 0) :
    HasDerivAt (fun t => y k + (t - x k) * (d k + (t - x k)
        * (coef3 x y d k + (t - x k) * coef4 x y d k))) (d (k + 1)) (x (k + 1)) := by
  have h := cubic_hasDerivAt (y k) (d k) (coef3 x y d k) (coef4 x y d k) (x k) (x (k + 1))
  rw [cubic_right_slope x y d k hdx] at h
  exact h

/-- Strictly inside a segment the interpolant has the derivative of the segment's
cubic. -/
theorem hermint_hasDerivAt_inside (n : Nat) (hn : 2 ≤ n) (x y d c3 c4 : Nat → ℝ)
    (hx : ∀ i j, i < j → j < n → x i < x j) (k : Nat) (hk : k ≤ n - 2) (t : ℝ)
    (h1 : x k < t) (h2 : t < x (k + 1)) :
    HasDerivAt
      (fun t => hermint t n x y d (hermite n x y d c3 c4).1 (hermite n x y d c3 c4).2)
      (d k + (t - x k) * (2 * coef3 x y d k + (t - x k) * (3 * coef4 x y d k))) t := by
  refine glue_hasDerivAt _ _ _ t (x k) (x (k + 1)) _ h1 h2 ?_ ?_
    (cubic_hasDerivAt (y k) (d k) (coef3 x y d k) (coef4 x y d k) (x k) t)
    (cubic_hasDerivAt (y k) (d k) (coef3 x y d k) (coef4 x y d k) (x k) t)
  · intro s hs1 hs2
    exact hermint_eq_piece n hn x y d c3 c4 hx s k hk (Or.inr hs1.le)
      (Or.inr (lt_of_le_of_lt hs2 h2))
  · intro s hs1 hs2
    exact hermint_eq_piece n hn x y d c3 c4 hx s k hk (Or.inr (h1.le.trans hs1))
      (Or.inr hs2)

/-- At every knot, the first and the last included, the interpolant is differentiable
with derivative `d[i]`. -/
theorem hermint_hasDerivAt_knot (n : Nat) (hn : 2 ≤ n) (x y d c3 c4 : Nat → ℝ)
    (hx : ∀ i j, i < j → j < n → x i < x j) (i : Nat) (hi : i < n) :
    HasDerivAt
      (fun t => hermint t n x y d (hermite n x y d c3 c4).1 (hermite n x y d c3 c4).2)
      (d i) (x i) := by
  rcases Nat.eq_zero_or_pos i with h0 | hpos
  · subst h0
    have hx01 : x 0 < x (0 + 1) := hx 0 1 (by omega) (by omega)
    refine glue_hasDerivAt _ _ _ (x 0) (x 0 - 1) (x (0 + 1)) _ (by linarith) hx01 ?_ ?_
      (piece_hasDerivAt_left x y d 0) (piece_hasDerivAt_left x y d 0)
    · intro s _ hs2
      exact hermint_eq_piece n hn x y d c3 c4 hx s 0 (by omega) (Or.inl rfl)
        (Or.inr (lt_of_le_of_lt hs2 hx01))
    · intro s _ hs2
      exact hermint_eq_piece n hn x y d c3 c4 hx s 0 (by omega) (Or.inl rfl) (Or.inr hs2)
  · obtain ⟨k, rfl⟩ : ∃ k, i = k + 1 := ⟨i - 1, by omega⟩
    have hxk : x k < x (k + 1) := hx k (k + 1) (by omega) hi
    have hdx : x (k + 1) - x k ≠ 0 := sub_ne_zero.mpr (ne_of_gt hxk)
    have hleft : ∀ s, x k < s → s ≤ x (k + 1) →
        hermint s n x y d (hermite n x y d c3 c4).1 (hermite n x y d c3 c4).2
          = y k + (s - x k) * (d k + (s - x k)
              * (coef3 x y d k + (s - x k) * coef4 x y d k)) := by
      intro s hs1 hs2
      rcases lt_or_eq_of_le hs2 with hlt | heq
      · exact hermint_eq_piece n hn x y d c3 c4 hx s k (by omega) (Or.inr hs1.le)
          (Or.inr hlt)
      · rw [heq, hermint_at_knot n hn x y d c3 c4 hx (k + 1) hi,
          cubic_right_value x y d k hdx]
    by_cases hlast : k + 1 = n - 1
    · refine glue_hasDerivAt _ _ _ (x (k + 1)) (x k) (x (k + 1) + 1) _ hxk (by linarith)
        hleft ?_ (piece_hasDerivAt_right x y d k hdx) (piece_hasDerivAt_right x y d k hdx)
      intro s hs1 _
      exact hermint_eq_piece n hn x y d c3 c4 hx s k (by omega)
        (Or.inr (hxk.le.trans hs1)) (Or.inl (by omega))
    · have hxk2 : x (k + 1) < x (k + 1 + 1) := hx (k + 1) (k + 1 + 1) (by omega) (by omega)
      refine glue_hasDerivAt _ _ _ (x (k + 1)) (x k) (x (k + 1 + 1)) _ hxk hxk2
        hleft ?_ (piece_hasDerivAt_right x y d k hdx) (piece_hasDerivAt_left x y d (k + 1))
      intro s hs1 hs2
      exact hermint_eq_piece n hn x y d c3 c4 hx s (k + 1) (by omega) (Or.inr hs1)
        (Or.inr hs2)

/-- The derivative of the interpolant is continuous at every interior knot. -/
theorem hermint_deriv_continuousAt_knot (n : Nat) (hn : 2 ≤ n) (x y d c3 c4 : Nat → ℝ)
    (hx : ∀ i j, i < j → j < n → x i < x j) (i : Nat) (h0 : 0 < i) (hi : i < n - 1) :
    ContinuousAt (deriv
      (fun t => hermint t n x y d (hermite n x y d c3 c4).1 (hermite n x y d c3 c4).2))
      (x i) := by
  obtain ⟨k, rfl⟩ : ∃ k, i = k + 1 := ⟨i - 1, by omega⟩
  have hxk : x k < x (k + 1) := hx k (k + 1) (by omega) (by omega)
  have hxk2 : x (k + 1) < x (k + 1 + 1) := hx (k + 1) (k + 1 + 1) (by omega) (by omega)
  have hdx : x (k + 1) - x k ≠ 0 := sub_ne_zero.mpr (ne_of_gt hxk)
  have hknot := (hermint_hasDerivAt_knot n hn x y d c3 c4 hx (k + 1) (by omega)).deriv
  refine glue_continuousAt _
    (fun t => d k + (t - x k) * (2 * coef3 x y d k + (t - x k) * (3 * coef4 x y d k)))
    (fun t => d (k + 1) + (t - x (k + 1)) * (2 * coef3 x y d (k + 1)
      + (t - x (k + 1)) * (3 * coef4 x y d (k + 1))))
    (x (k + 1)) (x k) (x (k + 1 + 1)) hxk hxk2 ?_ ?_ ?_ ?_
  · intro s hs1 hs2
    rcases lt_or_eq_of_le hs2 with hlt | heq
    · exact (hermint_hasDerivAt_inside n hn x y d c3 c4 hx k (by omega) s hs1 hlt).deriv
    · rw [heq, hknot]
      exact (cubic_right_slope x y d k hdx).symm
  · intro s hs1 hs2
    rcases lt_or_eq_of_le hs1 with hlt | heq
    · exact (hermint_hasDerivAt_inside n hn x y d c3 c4 hx (k + 1) (by omega) s hlt
        hs2).deriv
    · rw [← heq, hknot]
      ring
  · fun_prop
  · fun_prop

/-- C2. Hermite endpoint conditions. For every segment `i` in `0..n-2` of nonzero
width `dx`, the cubic `p_i(t) = y[i] + t*(d[i] + t*(c3[i] + t*c4[i]))` built from the
coefficients of `hermite` has `p_i(0) = y[i]`, `p_i'(0) = d[i]`, `p_i(dx) = y[i+1]`
and `p_i'(dx) = d[i+1]`. Hence, for `n ≥ 2` strictly increasing knots, the function
evaluated by `hermint` is continuous at every interior knot, differentiable there
with derivative `d[i]`, and its derivative is continuous there; and with all
`d[i] = 0` its derivative is zero at every knot. -/
theorem hermite_endpoint_conditions (n : Nat) (x y d c3 c4 : Nat → ℝ) :
    (∀ i, i < n - 1 → x (i + 1) - x i ≠ 0 →
      (fun t => y i + t * (d i + t * ((hermite n x y d c3 c4).1 i
          + t * (hermite n x y d c3 c4).2 i))) 0 = y i
      ∧ HasDerivAt (fun t => y i + t * (d i + t * ((hermite n x y d c3 c4).1 i
          + t * (hermite n x y d c3 c4).2 i))) (d i) 0
      ∧ (fun t => y i + t * (d i + t * ((hermite n x y d c3 c4).1 i
          + t * (hermite n x y d c3 c4).2 i))) (x (i + 1) - x i) = y (i + 1)
      ∧ HasDerivAt (fun t => y i + t * (d i + t * ((hermite n x y d c3 c4).1 i
          + t * (hermite n x y d c3 c4).2 i))) (d (i + 1)) (x (i + 1) - x i))
    ∧ (2 ≤ n → (∀ i j, i < j → j < n → x i < x j) →
        (∀ i, 0 < i → i < n - 1 →
          ContinuousAt (fun t => hermint t n x y d (hermite n x y d c3 c4).1
              (hermite n x y d c3 c4).2) (x i)
          ∧ HasDerivAt (fun t => hermint t n x y d (hermite n x y d c3 c4).1
              (hermite n x y d c3 c4).2) (d i) (x i)
          ∧ ContinuousAt (deriv (fun t => hermint t n x y d (hermite n x y d c3 c4).1
              (hermite n x y d c3 c4).2)) (x i))
        ∧ ((∀ i, d i = 0) → ∀ i, i < n →
            HasDerivAt (fun t => hermint t n x y d (hermite n x y d c3 c4).1
              (hermite n x y d c3 c4).2) 0 (x i))) := by
  refine ⟨?_, ?_⟩
  · intro i hi hdx
    simp only [hermite_yc3, hermite_yc4, if_pos hi]
    refine ⟨by ring, ?_, cubic_right_value x y d i hdx, ?_⟩
    · have h := cubic_hasDerivAt (y i) (d i) (coef3 x y d i) (coef4 x y d i) 0 0
      simp only [sub_zero, zero_mul, add_zero] at h
      exact h
    · have h := cubic_hasDerivAt (y i) (d i) (coef3 x y d i) (coef4 x y d i) 0
        (x (i + 1) - x i)
      simp only [sub_zero] at h
      rw [cubic_right_slope x y d i hdx] at h
      exact h
  · intro hn hx
    refine ⟨?_, ?_⟩
    · intro i h0 hi
      have hd := hermint_hasDerivAt_knot n hn x y d c3 c4 hx i (by omega)
      exact ⟨hd.continuousAt, hd, hermint_deriv_continuousAt_knot n hn x y d c3 c4 hx i h0 hi⟩
    · intro hz i hi
      have hd := hermint_hasDerivAt_knot n hn x y d c3 c4 hx i hi
      rwa [hz i] at hd

/-- Witness for C2: knots at times 0, 1, 2 with values 0, 1, 4 and zero derivatives;
the endpoint conditions of segment 0 and the smoothness at the interior knot 1. -/
theorem hermite_endpoint_conditions_witness :
    ((fun t : ℝ => (fun k : Nat => (k : ℝ) * k) 0 + t * ((fun _ : Nat => (0 : ℝ)) 0
        + t * ((hermite 3 (fun k => (k : ℝ)) (fun k => (k : ℝ) * k) (fun _ => 0)
            (fun _ => 0) (fun _ => 0)).1 0
          + t * (hermite 3 (fun k => (k : ℝ)) (fun k => (k : ℝ) * k) (fun _ => 0)
            (fun _ => 0) (fun _ => 0)).2 0)))
        ((fun k : Nat => (k : ℝ)) (0 + 1) - (fun k : Nat => (k : ℝ)) 0)
      = (fun k : Nat => (k : ℝ) * k) (0 + 1))
    ∧ HasDerivAt (fun t => hermint t 3 (fun k => (k : ℝ)) (fun k => (k : ℝ) * k)
          (fun _ => 0)
          (hermite 3 (fun k => (k : ℝ)) (fun k => (k : ℝ) * k) (fun _ => 0)
            (fun _ => 0) (fun _ => 0)).1
          (hermite 3 (fun k => (k : ℝ)) (fun k => (k : ℝ) * k) (fun _ => 0)
            (fun _ => 0) (fun _ => 0)).2) 0 ((fun k : Nat => (k : ℝ)) 1) :=
  ⟨((hermite_endpoint_conditions 3 (fun k => (k : ℝ)) (fun k => (k : ℝ) * k)
      (fun _ => 0) (fun _ => 0) (fun _ => 0)).1 0 (by decide) (by norm_num)).2.2.1,
   ((hermite_endpoint_conditions 3 (fun k => (k : ℝ)) (fun k => (k : ℝ) * k)
      (fun _ => 0) (fun _ => 0) (fun _ => 0)).2 (by decide)
      (fun i j hij _ => Nat.cast_lt.mpr hij)).2 (fun _ => rfl) 1 (by decide)⟩

end SplineAnalysis

/-! ## The disaggregator `HourlyT` -/

section Disaggregator

variable {α : Type} [LinearOrderedField α]

/-- The time of the first knot of day `i` (array index `2*i`): the earlier of the two
hours, shifted by the offset `(int)(0.5*Dt) + i*HOURSPERDAY`. -/
theorem knots_x_even (H Dt : Int) (TmaxHour : Nat → Int) (Tmax : Nat → α)
    (TminHour : Nat → Int) (Tmin : Nat → α) (i : Nat) (hi : i < 3) :
    (HourlyT.knots H Dt TmaxHour Tmax TminHour Tmin).x (2 * i)
      = (((if TminHour i < TmaxHour i then TminHour i else TmaxHour i)
          + (truncHalf Dt + i * H) : Int) : α) := by
  simp only [HourlyT.knots, List.range_succ, List.range_zero, List.nil_append,
    List.foldl_cons, List.foldl_nil, List.cons_append, HourlyT.fillBody]
  interval_cases i <;> split_ifs <;> simp_all [Function.update] <;> ring

/-- The time of the second knot of day `i` (array index `2*i+1`). -/
theorem knots_x_odd (H Dt : Int) (TmaxHour : Nat → Int) (Tmax : Nat → α)
    (TminHour : Nat → Int) (Tmin : Nat → α) (i : Nat) (hi : i < 3) :
    (HourlyT.knots H Dt TmaxHour Tmax TminHour Tmin).x (2 * i + 1)
      = (((if TminHour i < TmaxHour i then TmaxHour i else TminHour i)
          + (truncHalf Dt + i * H) : Int) : α) := by
  simp only [HourlyT.knots, List.range_succ, List.range_zero, List.nil_append,
    List.foldl_cons, List.foldl_nil, List.cons_append, HourlyT.fillBody]
  interval_cases i <;> split_ifs <;> simp_all [Function.update] <;> ring

/-- The value of the first knot of day `i`. -/
theorem knots_y_even (H Dt : Int) (TmaxHour : Nat → Int) (Tmax : Nat → α)
    (TminHour : Nat → Int) (Tmin : Nat → α) (i : Nat) (hi : i < 3) :
    (HourlyT.knots H Dt TmaxHour Tmax TminHour Tmin).Tyc1 (2 * i)
      = if TminHour i < TmaxHour i then Tmin i else Tmax i := by
  simp only [HourlyT.knots, List.range_succ, List.range_zero, List.nil_append,
    List.foldl_cons, List.foldl_nil, List.cons_append, HourlyT.fillBody]
  interval_cases i <;> split_ifs <;> simp_all [Function.update]

/-- The value of the second knot of day `i`. -/
theorem knots_y_odd (H Dt : Int) (TmaxHour : Nat → Int) (Tmax : Nat → α)
    (TminHour : Nat → Int) (Tmin : Nat → α) (i : Nat) (hi : i < 3) :
    (HourlyT.knots H Dt TmaxHour Tmax TminHour Tmin).Tyc1 (2 * i + 1)
      = if TminHour i < TmaxHour i then Tmax i else Tmin i := by
  simp only [HourlyT.knots, List.range_succ, List.range_zero, List.nil_append,
    List.foldl_cons, List.foldl_nil, List.cons_append, HourlyT.fillBody]
  interval_cases i <;> split_ifs <;> simp_all [Function.update]

/-- After its zeroing loop the derivative array `yc2` is zero everywhere. -/
theorem yc2_zero (n i : Nat) : (HourlyT.yc2 n : Nat → α) i = 0 := by
  have h : (HourlyT.yc2 n : Nat → α) = fun _ => 0 := by
    unfold HourlyT.yc2
    induction n with
    | zero => simp
    | succ n ih =>
      rw [List.range_succ, List.foldl_append, ih]
      funext j
      simp [Function.update]
  rw [h]

/-- State of the interpolation loop of `HourlyT` after `m` iterations. -/
theorem sample_fold (Dt : Int) (n : Nat) (x y d c3 c4 : Nat → α) (h0 : Int)
    (Tair : Nat → α) (m : Nat) :
    (List.range m).foldl (HourlyT.sampleBody Dt n x y d c3 c4) (h0, Tair)
      = (h0 + m * Dt,
         fun i => if i < m then hermint (((h0 + i * Dt : Int)) : α) n x y d c3 c4
                  else Tair i) := by
  induction m with
  | zero => simp
  | succ m ih =>
    rw [List.range_succ, List.foldl_append, ih]
    simp only [List.foldl_cons, List.foldl_nil, HourlyT.sampleBody]
    refine Prod.ext ?_ ?_
    · simp only [Nat.cast_add, Nat.cast_one]; ring
    · funext i
      by_cases h : i = m
      · subst h; simp
      · simp only [Function.update_noteq h]
        by_cases h1 : i < m
        · simp [h1, Nat.lt_succ_of_lt h1]
        · have : ¬ i < m + 1 := by omega
          simp [h1, this]

/-- Contents of `Tair` after `HourlyT`: entry `i < HOURSPERDAY` holds `hermint` at the
query time `(int)(0.5*Dt+HOURSPERDAY) + i*Dt`, the other entries are untouched. -/
theorem HourlyT_apply (H Dt : Int) (TmaxHour : Nat → Int) (Tmax : Nat → α)
    (TminHour : Nat → Int) (Tmin : Nat → α) (Tair : Nat → α) (i : Nat) :
    HourlyT H Dt TmaxHour Tmax TminHour Tmin Tair i
      = if i < H.toNat then
          hermint (((truncHalf (Dt + 2 * H) + i * Dt : Int)) : α) 6
            (HourlyT.knots H Dt TmaxHour Tmax TminHour Tmin).x
            (HourlyT.knots H Dt TmaxHour Tmax TminHour Tmin).Tyc1 (HourlyT.yc2 6)
            (hermite 6 (HourlyT.knots H Dt TmaxHour Tmax TminHour Tmin).x
              (HourlyT.knots H Dt TmaxHour Tmax TminHour Tmin).Tyc1 (HourlyT.yc2 6)
              (fun _ => 0) (fun _ => 0)).1
            (hermite 6 (HourlyT.knots H Dt TmaxHour Tmax TminHour Tmin).x
              (HourlyT.knots H Dt TmaxHour Tmax TminHour Tmin).Tyc1 (HourlyT.yc2 6)
              (fun _ => 0) (fun _ => 0)).2
        else Tair i := by
  unfold HourlyT
  simp only [sample_fold]

/-- Strict monotonicity of an array prefix follows from the adjacent comparisons. -/
theorem strict_of_adjacent (n : Nat) (x : Nat → α)
    (h : ∀ i, i + 1 < n → x i < x (i + 1)) : ∀ i j, i < j → j < n → x i < x j := by
  intro i j hij
  induction j with
  | zero => omega
  | succ j ih =>
    intro hj
    rcases Nat.eq_or_lt_of_le (Nat.lt_succ_iff.mp hij) with e | l
    · subst e; exact h i hj
    · exact lt_trans (ih l (by omega)) (h j hj)

/-- Adjacent knot times of `HourlyT` are strictly increasing when all hours of
minimum and maximum lie in `0..HOURSPERDAY-1` and differ within each day. -/
theorem knots_adjacent (H Dt : Int) (TmaxHour : Nat → Int) (Tmax : Nat → α)
    (TminHour : Nat → Int) (Tmin : Nat → α)
    (hmin : ∀ i, i < 3 → 0 ≤ TminHour i ∧ TminHour i < H)
    (hmax : ∀ i, i < 3 → 0 ≤ TmaxHour i ∧ TmaxHour i < H)
    (hne : ∀ i, i < 3 → TminHour i ≠ TmaxHour i) (j : Nat) (hj : j + 1 < 6) :
    (HourlyT.knots H Dt TmaxHour Tmax TminHour Tmin).x j
      < (HourlyT.knots H Dt TmaxHour Tmax TminHour Tmin).x (j + 1) := by
  have e0 := knots_x_even H Dt TmaxHour Tmax TminHour Tmin 0 (by omega)
  have e1 := knots_x_odd H Dt TmaxHour Tmax TminHour Tmin 0 (by omega)
  have e2 := knots_x_even H Dt TmaxHour Tmax TminHour Tmin 1 (by omega)
  have e3 := knots_x_odd H Dt TmaxHour Tmax TminHour Tmin 1 (by omega)
  have e4 := knots_x_even H Dt TmaxHour Tmax TminHour Tmin 2 (by omega)
  have e5 := knots_x_odd H Dt TmaxHour Tmax TminHour Tmin 2 (by omega)
  have a0 := hmin 0 (by omega)
  have a1 := hmin 1 (by omega)
  have a2 := hmin 2 (by omega)
  have b0 := hmax 0 (by omega)
  have b1 := hmax 1 (by omega)
  have b2 := hmax 2 (by omega)
  have n0 := hne 0 (by omega)
  have n1 := hne 1 (by omega)
  have n2 := hne 2 (by omega)
  simp only [Nat.mul_zero, Nat.mul_one, Nat.zero_add, Nat.reduceMul, Nat.reduceAdd] at e0 e1 e2 e3 e4 e5
  have hj5 : j < 5 := by omega
  interval_cases j
  · rw [e0, e1, Int.cast_lt]; split_ifs <;> push_cast <;> omega
  · rw [e1, e2, Int.cast_lt]; split_ifs <;> push_cast <;> omega
  · rw [e2, e3, Int.cast_lt]; split_ifs <;> push_cast <;> omega
  · rw [e3, e4, Int.cast_lt]; split_ifs <;> push_cast <;> omega
  · rw [e4, e5, Int.cast_lt]; split_ifs <;> push_cast <;> omega

/-- C5 (amended). Knot-set invariant: when the hours of minimum and maximum of the
three days all lie in `0..HOURSPERDAY-1` and, on each day, the hour of the minimum
differs from the hour of the maximum, the six knot times built by `HourlyT` are
strictly increasing, every interval width used by `hermite` is positive, and all six
first derivatives are zero. -/
theorem HourlyT_knots_increasing (H Dt : Int) (TmaxHour : Nat → Int) (Tmax : Nat → α)
    (TminHour : Nat → Int) (Tmin : Nat → α)
    (hmin : ∀ i, i < 3 → 0 ≤ TminHour i ∧ TminHour i < H)
    (hmax : ∀ i, i < 3 → 0 ≤ TmaxHour i ∧ TmaxHour i < H)
    (hne : ∀ i, i < 3 → TminHour i ≠ TmaxHour i) :
    (∀ i j, i < j → j < 6 →
        (HourlyT.knots H Dt TmaxHour Tmax TminHour Tmin).x i
          < (HourlyT.knots H Dt TmaxHour Tmax TminHour Tmin).x j)
      ∧ (∀ i, i < 6 - 1 →
          0 < (HourlyT.knots H Dt TmaxHour Tmax TminHour Tmin).x (i + 1)
              - (HourlyT.knots H Dt TmaxHour Tmax TminHour Tmin).x i)
      ∧ (∀ i, i < 6 → (HourlyT.yc2 6 : Nat → α) i = 0) := by
  have hadj := knots_adjacent H Dt TmaxHour Tmax TminHour Tmin hmin hmax hne
  refine ⟨strict_of_adjacent 6 _ hadj, ?_, fun i _ => yc2_zero 6 i⟩
  intro i hi
  exact sub_pos.mpr (hadj i (by omega))

/-- Witness for C5 (amended): minimum at hour 6 and maximum at hour 18 on each of the
three days, `HOURSPERDAY = 24`, `Dt = 1`; times 30 and 42 of the middle day. -/
theorem HourlyT_knots_increasing_witness :
    (HourlyT.knots 24 1 (fun _ => 18) (fun _ => (20 : ℚ)) (fun _ => 6) (fun _ => 5)).x 2
      < (HourlyT.knots 24 1 (fun _ => 18) (fun _ => (20 : ℚ)) (fun _ => 6) (fun _ => 5)).x 3 :=
  (HourlyT_knots_increasing 24 1 (fun _ => 18) (fun _ => (20 : ℚ)) (fun _ => 6)
    (fun _ => 5) (fun _ _ => by norm_num) (fun _ _ => by norm_num)
    (fun _ _ => by norm_num)).1 2 3 (by decide) (by decide)

/-- C5, counterexample. With the hour of the minimum equal to the hour of the maximum
(both 6, inside `0..23`) the first two knot times coincide: the knot times are not
strictly increasing and the first interval width is zero. -/
theorem HourlyT_knots_not_increasing :
    (∀ i, i < 3 → (0 : Int) ≤ (fun _ : Nat => (6 : Int)) i ∧ (fun _ : Nat => (6 : Int)) i < 24)
      ∧ ¬ ((HourlyT.knots 24 1 (fun _ => 6) (fun _ => (20 : ℚ)) (fun _ => 6) (fun _ => 5)).x 0
        < (HourlyT.knots 24 1 (fun _ => 6) (fun _ => (20 : ℚ)) (fun _ => 6) (fun _ => 5)).x 1)
      ∧ (HourlyT.knots 24 1 (fun _ => 6) (fun _ => (20 : ℚ)) (fun _ => 6) (fun _ => 5)).x 1
        - (HourlyT.knots 24 1 (fun _ => 6) (fun _ => (20 : ℚ)) (fun _ => 6) (fun _ => 5)).x 0
          = 0 := by
  have e0 := knots_x_even 24 1 (fun _ => 6) (fun _ => (20 : ℚ)) (fun _ => 6) (fun _ => 5) 0
    (by decide)
  have e1 := knots_x_odd 24 1 (fun _ => 6) (fun _ => (20 : ℚ)) (fun _ => 6) (fun _ => 5) 0
    (by decide)
  simp only [Nat.mul_zero, Nat.zero_add] at e0 e1
  rw [e0, e1]
  refine ⟨fun _ _ => by norm_num, ?_, ?_⟩ <;> simp

/-- Knot times of the worked example (minimum 5 at hour 6, maximum 20 at hour 18 on
each day, `HOURSPERDAY = 24`, `Dt = 1`): 6, 18, 30, 42, 54, 66. -/
theorem example_knots_x (j : Nat) (hj : j < 6) :
    (HourlyT.knots 24 1 (fun _ => 18) (fun _ => (20 : α)) (fun _ => 6) (fun _ => 5)).x j
      = 6 + 12 * (j : α) := by
  have e0 := knots_x_even 24 1 (fun _ => 18) (fun _ => (20 : α)) (fun _ => 6) (fun _ => 5) 0
    (by omega)
  have e1 := knots_x_odd 24 1 (fun _ => 18) (fun _ => (20 : α)) (fun _ => 6) (fun _ => 5) 0
    (by omega)
  have e2 := knots_x_even 24 1 (fun _ => 18) (fun _ => (20 : α)) (fun _ => 6) (fun _ => 5) 1
    (by omega)
  have e3 := knots_x_odd 24 1 (fun _ => 18) (fun _ => (20 : α)) (fun _ => 6) (fun _ => 5) 1
    (by omega)
  have e4 := knots_x_even 24 1 (fun _ => 18) (fun _ => (20 : α)) (fun _ => 6) (fun _ => 5) 2
    (by omega)
  have e5 := knots_x_odd 24 1 (fun _ => 18) (fun _ => (20 : α)) (fun _ => 6) (fun _ => 5) 2
    (by omega)
  have ht : truncHalf 1 = 0 := by decide
  simp only [Nat.mul_zero, Nat.mul_one, Nat.zero_add, Nat.reduceMul, Nat.reduceAdd, ht]
    at e0 e1 e2 e3 e4 e5
  interval_cases j
  · rw [e0]; norm_num
  · rw [e1]; norm_num
  · rw [e2]; norm_num
  · rw [e3]; norm_num
  · rw [e4]; norm_num
  · rw [e5]; norm_num

/-- Knot values of the worked example: 5, 20, 5, 20, 5, 20. -/
theorem example_knots_y (j : Nat) (hj : j < 6) :
    (HourlyT.knots 24 1 (fun _ => 18) (fun _ => (20 : α)) (fun _ => 6) (fun _ => 5)).Tyc1 j
      = if j % 2 = 0 then 5 else 20 := by
  have e0 := knots_y_even 24 1 (fun _ => 18) (fun _ => (20 : α)) (fun _ => 6) (fun _ => 5) 0
    (by omega)
  have e1 := knots_y_odd 24 1 (fun _ => 18) (fun _ => (20 : α)) (fun _ => 6) (fun _ => 5) 0
    (by omega)
  have e2 := knots_y_even 24 1 (fun _ => 18) (fun _ => (20 : α)) (fun _ => 6) (fun _ => 5) 1
    (by omega)
  have e3 := knots_y_odd 24 1 (fun _ => 18) (fun _ => (20 : α)) (fun _ => 6) (fun _ => 5) 1
    (by omega)
  have e4 := knots_y_even 24 1 (fun _ => 18) (fun _ => (20 : α)) (fun _ => 6) (fun _ => 5) 2
    (by omega)
  have e5 := knots_y_odd 24 1 (fun _ => 18) (fun _ => (20 : α)) (fun _ => 6) (fun _ => 5) 2
    (by omega)
  simp only [Nat.mul_zero, Nat.mul_one, Nat.zero_add, Nat.reduceMul, Nat.reduceAdd]
    at e0 e1 e2 e3 e4 e5
  interval_cases j
  · rw [e0]; norm_num
  · rw [e1]; norm_num
  · rw [e2]; norm_num
  · rw [e3]; norm_num
  · rw [e4]; norm_num
  · rw [e5]; norm_num

/-- The series of the worked example in closed form: output `i` is the cubic of the
segment containing time `24 + i`. -/
theorem example_series (Tair : Nat → α) (i : Nat) (hi : i < 24) :
    HourlyT 24 1 (fun _ => 18) (fun _ => (20 : α)) (fun _ => 6) (fun _ => 5) Tair i
      = if i < 6 then 20 + (6 + (i : α)) * ((6 + (i : α)) * (-5 / 16 + (6 + (i : α)) * (5 / 288)))
        else if i < 18 then
          5 + ((i : α) - 6) * (((i : α) - 6) * (5 / 16 + ((i : α) - 6) * (-5 / 288)))
        else 20 + ((i : α) - 18) * (((i : α) - 18) * (-5 / 16 + ((i : α) - 18) * (5 / 288))) := by
  have hx : ∀ a b, a < b → b < 6 →
      (HourlyT.knots 24 1 (fun _ => 18) (fun _ => (20 : α)) (fun _ => 6) (fun _ => 5)).x a
        < (HourlyT.knots 24 1 (fun _ => 18) (fun _ => (20 : α)) (fun _ => 6) (fun _ => 5)).x b :=
    strict_of_adjacent 6 _ (knots_adjacent 24 1 (fun _ => 18) (fun _ => (20 : α))
      (fun _ => 6) (fun _ => 5) (fun _ _ => by norm_num) (fun _ _ => by norm_num)
      (fun _ _ => by norm_num))
  have ht : truncHalf (1 + 2 * 24) = 24 := by decide
  have hi' : i < (24 : Int).toNat := by simpa using hi
  rw [HourlyT_apply, if_pos hi', ht]
  have hq : (((24 + (i : Int) * 1 : Int)) : α) = 24 + (i : α) := by push_cast; ring
  rw [hq]
  have hiα : (i : α) < 24 := by exact_mod_cast hi
  have hi0 : (0 : α) ≤ (i : α) := Nat.cast_nonneg i
  by_cases h6 : i < 6
  · have h6α : (i : α) < 6 := by exact_mod_cast h6
    rw [if_pos h6, hermint_eq_piece 6 (by norm_num) _ _ _ _ _ hx _ 1 (by norm_num)
      (Or.inr (by rw [example_knots_x 1 (by norm_num)]; norm_num; linarith))
      (Or.inr (by rw [example_knots_x 2 (by norm_num)]; norm_num; linarith))]
    simp only [coef3, coef4, yc2_zero, example_knots_x 1 (by norm_num),
      example_knots_x 2 (by norm_num), example_knots_y 1 (by norm_num),
      example_knots_y 2 (by norm_num)]
    norm_num
    ring
  · by_cases h18 : i < 18
    · have h6α : (6 : α) ≤ (i : α) := by exact_mod_cast (not_lt.mp h6)
      have h18α : (i : α) < 18 := by exact_mod_cast h18
      rw [if_neg h6, if_pos h18, hermint_eq_piece 6 (by norm_num) _ _ _ _ _ hx _ 2
        (by norm_num)
        (Or.inr (by rw [example_knots_x 2 (by norm_num)]; norm_num; linarith))
        (Or.inr (by rw [example_knots_x 3 (by norm_num)]; norm_num; linarith))]
      simp only [coef3, coef4, yc2_zero, example_knots_x 2 (by norm_num),
        example_knots_x 3 (by norm_num), example_knots_y 2 (by norm_num),
        example_knots_y 3 (by norm_num)]
      norm_num
      ring
    · have h18α : (18 : α) ≤ (i : α) := by exact_mod_cast (not_lt.mp h18)
      rw [if_neg h6, if_neg h18, hermint_eq_piece 6 (by norm_num) _ _ _ _ _ hx _ 3
        (by norm_num)
        (Or.inr (by rw [example_knots_x 3 (by norm_num)]; norm_num; linarith))
        (Or.inr (by rw [example_knots_x 4 (by norm_num)]; norm_num; linarith))]
      simp only [coef3, coef4, yc2_zero, example_knots_x 3 (by norm_num),
        example_knots_x 4 (by norm_num), example_knots_y 3 (by norm_num),
        example_knots_y 4 (by norm_num)]
      norm_num
      ring

/-- C3. Worked example of the disaggregator: with `HOURSPERDAY = 24`, `Dt = 1`,
minimum 5.0 at hour 6 and maximum 20.0 at hour 18 on each of the three days, the
series written by `HourlyT` has `Tair[6] = 5` as its minimum and `Tair[18] = 20` as
its maximum over `Tair[0..23]`, is non-decreasing from index 6 to 18 and
non-increasing on `0..6` and on `18..23`. -/
theorem HourlyT_worked_example (Tair : Nat → α) :
    HourlyT 24 1 (fun _ => 18) (fun _ => (20 : α)) (fun _ => 6) (fun _ => 5) Tair 6 = 5
    ∧ HourlyT 24 1 (fun _ => 18) (fun _ => (20 : α)) (fun _ => 6) (fun _ => 5) Tair 18 = 20
    ∧ (∀ i, i < 24 →
        HourlyT 24 1 (fun _ => 18) (fun _ => (20 : α)) (fun _ => 6) (fun _ => 5) Tair 6
          ≤ HourlyT 24 1 (fun _ => 18) (fun _ => (20 : α)) (fun _ => 6) (fun _ => 5) Tair i
        ∧ HourlyT 24 1 (fun _ => 18) (fun _ => (20 : α)) (fun _ => 6) (fun _ => 5) Tair i
          ≤ HourlyT 24 1 (fun _ => 18) (fun _ => (20 : α)) (fun _ => 6) (fun _ => 5) Tair 18)
    ∧ (∀ i, 6 ≤ i → i < 18 →
        HourlyT 24 1 (fun _ => 18) (fun _ => (20 : α)) (fun _ => 6) (fun _ => 5) Tair i
          ≤ HourlyT 24 1 (fun _ => 18) (fun _ => (20 : α)) (fun _ => 6) (fun _ => 5) Tair
              (i + 1))
    ∧ (∀ i, i < 6 →
        HourlyT 24 1 (fun _ => 18) (fun _ => (20 : α)) (fun _ => 6) (fun _ => 5) Tair (i + 1)
          ≤ HourlyT 24 1 (fun _ => 18) (fun _ => (20 : α)) (fun _ => 6) (fun _ => 5) Tair i)
    ∧ (∀ i, 18 ≤ i → i < 23 →
        HourlyT 24 1 (fun _ => 18) (fun _ => (20 : α)) (fun _ => 6) (fun _ => 5) Tair (i + 1)
          ≤ HourlyT 24 1 (fun _ => 18) (fun _ => (20 : α)) (fun _ => 6) (fun _ => 5) Tair i) := by
  refine ⟨?_, ?_, ?_, ?_, ?_, ?_⟩
  · rw [example_series Tair 6 (by norm_num)]; norm_num
  · rw [example_series Tair 18 (by norm_num)]; norm_num
  · intro i hi
    rw [example_series Tair 6 (by norm_num), example_series Tair 18 (by norm_num),
      example_series Tair i hi]
    interval_cases i <;> norm_num
  · intro i h1 h2
    rw [example_series Tair i (by omega), example_series Tair (i + 1) (by omega)]
    interval_cases i <;> norm_num
  · intro i h1
    rw [example_series Tair i (by omega), example_series Tair (i + 1) (by omega)]
    interval_cases i <;> norm_num
  · intro i h1 h2
    rw [example_series Tair i (by omega), example_series Tair (i + 1) (by omega)]
    interval_cases i <;> norm_num

/-- Witness for C3: the rise from hour 7 to hour 8 over the rationals. -/
theorem HourlyT_worked_example_witness :
    HourlyT 24 1 (fun _ => 18) (fun _ => (20 : ℚ)) (fun _ => 6) (fun _ => 5) (fun _ => 0) 7
      ≤ HourlyT 24 1 (fun _ => 18) (fun _ => (20 : ℚ)) (fun _ => 6) (fun _ => 5) (fun _ => 0)
          (7 + 1) :=
  (HourlyT_worked_example (fun _ => (0 : ℚ))).2.2.2.1 7 (by decide) (by decide)

/-- Knot times of the example day pattern (minimum at hour 6, maximum at hour 18,
`HOURSPERDAY = 24`) for an arbitrary step `Dt`. -/
theorem example_knots_x_step (Dt : Int) (j : Nat) (hj : j < 6) :
    (HourlyT.knots 24 Dt (fun _ => 18) (fun _ => (20 : α)) (fun _ => 6) (fun _ => 5)).x j
      = ((truncHalf Dt : Int) : α) + 6 + 12 * (j : α) := by
  have e0 := knots_x_even 24 Dt (fun _ => 18) (fun _ => (20 : α)) (fun _ => 6) (fun _ => 5) 0
    (by omega)
  have e1 := knots_x_odd 24 Dt (fun _ => 18) (fun _ => (20 : α)) (fun _ => 6) (fun _ => 5) 0
    (by omega)
  have e2 := knots_x_even 24 Dt (fun _ => 18) (fun _ => (20 : α)) (fun _ => 6) (fun _ => 5) 1
    (by omega)
  have e3 := knots_x_odd 24 Dt (fun _ => 18) (fun _ => (20 : α)) (fun _ => 6) (fun _ => 5) 1
    (by omega)
  have e4 := knots_x_even 24 Dt (fun _ => 18) (fun _ => (20 : α)) (fun _ => 6) (fun _ => 5) 2
    (by omega)
  have e5 := knots_x_odd 24 Dt (fun _ => 18) (fun _ => (20 : α)) (fun _ => 6) (fun _ => 5) 2
    (by omega)
  simp only [Nat.mul_zero, Nat.mul_one, Nat.zero_add, Nat.reduceMul, Nat.reduceAdd]
    at e0 e1 e2 e3 e4 e5
  interval_cases j
  · rw [e0]; push_cast; norm_num; ring
  · rw [e1]; push_cast; norm_num; ring
  · rw [e2]; push_cast; norm_num; ring
  · rw [e3]; push_cast; norm_num; ring
  · rw [e4]; push_cast; norm_num; ring
  · rw [e5]; push_cast; norm_num; ring

/-- Knot values of the example day pattern for an arbitrary step `Dt`. -/
theorem example_knots_y_step (Dt : Int) (j : Nat) (hj : j < 6) :
    (HourlyT.knots 24 Dt (fun _ => 18) (fun _ => (20 : α)) (fun _ => 6) (fun _ => 5)).Tyc1 j
      = if j % 2 = 0 then 5 else 20 := by
  have e0 := knots_y_even 24 Dt (fun _ => 18) (fun _ => (20 : α)) (fun _ => 6) (fun _ => 5) 0
    (by omega)
  have e1 := knots_y_odd 24 Dt (fun _ => 18) (fun _ => (20 : α)) (fun _ => 6) (fun _ => 5) 0
    (by omega)
  have e2 := knots_y_even 24 Dt (fun _ => 18) (fun _ => (20 : α)) (fun _ => 6) (fun _ => 5) 1
    (by omega)
  have e3 := knots_y_odd 24 Dt (fun _ => 18) (fun _ => (20 : α)) (fun _ => 6) (fun _ => 5) 1
    (by omega)
  have e4 := knots_y_even 24 Dt (fun _ => 18) (fun _ => (20 : α)) (fun _ => 6) (fun _ => 5) 2
    (by omega)
  have e5 := knots_y_odd 24 Dt (fun _ => 18) (fun _ => (20 : α)) (fun _ => 6) (fun _ => 5) 2
    (by omega)
  simp only [Nat.mul_zero, Nat.mul_one, Nat.zero_add, Nat.reduceMul, Nat.reduceAdd]
    at e0 e1 e2 e3 e4 e5
  interval_cases j
  · rw [e0]; norm_num
  · rw [e1]; norm_num
  · rw [e2]; norm_num
  · rw [e3]; norm_num
  · rw [e4]; norm_num
  · rw [e5]; norm_num

/-- C4, the failing input. With `HOURSPERDAY = 24` and `Dt = 2` (which divides 24, so
`N = 12`), `HourlyT` writes 24 outputs, not 12: over a buffer holding 0, index 12
holds 25/2 after the call, the value of `hermint` at query time `25 + 12*2 = 49`, and
the last index 23 holds 125/9, the value at query time `25 + 23*2 = 71`, which lies
after the end of the middle day and after the last knot (time 67), an extrapolation
of the last segment. -/
theorem HourlyT_writes_beyond_N :
    (2 : Int) ∣ 24 ∧ ((24 : Int) / 2).toNat = 12
      ∧ (fun _ : Nat => (0 : ℚ)) 12 = 0
      ∧ HourlyT 24 2 (fun _ => 18) (fun _ => (20 : ℚ)) (fun _ => 6) (fun _ => 5)
          (fun _ => 0) 12 = 25 / 2
      ∧ 2 * 24 + truncHalf 2 < truncHalf (2 + 2 * 24) + 23 * 2
      ∧ (fun _ : Nat => (0 : ℚ)) 23 = 0
      ∧ HourlyT 24 2 (fun _ => 18) (fun _ => (20 : ℚ)) (fun _ => 6) (fun _ => 5)
          (fun _ => 0) 23 = 125 / 9
      ∧ (HourlyT.knots 24 2 (fun _ => 18) (fun _ => (20 : ℚ)) (fun _ => 6)
          (fun _ => 5)).x 5 = 67 := by
  have hx : ∀ a b, a < b → b < 6 →
      (HourlyT.knots 24 2 (fun _ => 18) (fun _ => (20 : ℚ)) (fun _ => 6) (fun _ => 5)).x a
        < (HourlyT.knots 24 2 (fun _ => 18) (fun _ => (20 : ℚ)) (fun _ => 6) (fun _ => 5)).x b :=
    strict_of_adjacent 6 _ (knots_adjacent 24 2 (fun _ => 18) (fun _ => (20 : ℚ))
      (fun _ => 6) (fun _ => 5) (fun _ _ => by norm_num) (fun _ _ => by norm_num)
      (fun _ _ => by norm_num))
  have ht : truncHalf (2 + 2 * 24) = 25 := by decide
  have ht2 : truncHalf 2 = 1 := by decide
  refine ⟨by decide, by decide, rfl, ?_, by decide, rfl, ?_, ?_⟩
  · rw [HourlyT_apply, if_pos (by decide), ht,
      hermint_eq_piece 6 (by norm_num) _ _ _ _ _ hx _ 3 (by norm_num)
        (Or.inr (by rw [example_knots_x_step 2 3 (by norm_num), ht2]; norm_num))
        (Or.inr (by rw [example_knots_x_step 2 4 (by norm_num), ht2]; norm_num))]
    simp only [coef3, coef4, yc2_zero, example_knots_x_step 2 3 (by norm_num),
      example_knots_x_step 2 4 (by norm_num), example_knots_y_step 2 3 (by norm_num),
      example_knots_y_step 2 4 (by norm_num), ht2]
    norm_num
  · rw [HourlyT_apply, if_pos (by decide), ht,
      hermint_eq_piece 6 (by norm_num) _ _ _ _ _ hx _ 4 (by norm_num)
        (Or.inr (by rw [example_knots_x_step 2 4 (by norm_num), ht2]; norm_num))
        (Or.inl (by norm_num))]
    simp only [coef3, coef4, yc2_zero, example_knots_x_step 2 4 (by norm_num),
      example_knots_x_step 2 5 (by norm_num), example_knots_y_step 2 4 (by norm_num),
      example_knots_y_step 2 5 (by norm_num), ht2]
    norm_num
  · rw [example_knots_x_step 2 5 (by norm_num), ht2]
    norm_num

/-- What the sampling loop of `HourlyT` does get right for a step `Dt ≥ 1` dividing
`HOURSPERDAY`, with `N = HOURSPERDAY/Dt`: for every `i < N`, output `i` is `hermint` at
query time `(Dt/2 + HOURSPERDAY) + i*Dt`, the half step being truncated to an integer,
and this query time lies within the middle day; no entry of index `HOURSPERDAY` or
more is written; for `Dt = 1`, `N = HOURSPERDAY`. -/
theorem HourlyT_sampling (H Dt : Int) (hDt : 1 ≤ Dt) (hdiv : Dt ∣ H)
    (TmaxHour : Nat → Int) (Tmax : Nat → α) (TminHour : Nat → Int) (Tmin : Nat → α)
    (Tair : Nat → α) :
    (∀ i : Nat, i < (H / Dt).toNat →
      HourlyT H Dt TmaxHour Tmax TminHour Tmin Tair i
        = hermint ((((Dt / 2 + H) + i * Dt : Int)) : α) 6
            (HourlyT.knots H Dt TmaxHour Tmax TminHour Tmin).x
            (HourlyT.knots H Dt TmaxHour Tmax TminHour Tmin).Tyc1 (HourlyT.yc2 6)
            (hermite 6 (HourlyT.knots H Dt TmaxHour Tmax TminHour Tmin).x
              (HourlyT.knots H Dt TmaxHour Tmax TminHour Tmin).Tyc1 (HourlyT.yc2 6)
              (fun _ => 0) (fun _ => 0)).1
            (hermite 6 (HourlyT.knots H Dt TmaxHour Tmax TminHour Tmin).x
              (HourlyT.knots H Dt TmaxHour Tmax TminHour Tmin).Tyc1 (HourlyT.yc2 6)
              (fun _ => 0) (fun _ => 0)).2
        ∧ H ≤ (Dt / 2 + H) + i * Dt ∧ (Dt / 2 + H) + i * Dt < 2 * H)
    ∧ (∀ i, H.toNat ≤ i → HourlyT H Dt TmaxHour Tmax TminHour Tmin Tair i = Tair i)
    ∧ (Dt = 1 → (H / Dt).toNat = H.toNat) := by
  refine ⟨?_, ?_, ?_⟩
  · intro i hi
    obtain ⟨N, rfl⟩ := hdiv
    have hD0 : Dt ≠ 0 := by omega
    rw [Int.mul_ediv_cancel_left N hD0] at hi
    have hN : (i : Int) + 1 ≤ N := by omega
    have h1 : (0 : Int) ≤ (i : Int) * Dt := by positivity
    have h2 : ((i : Int) + 1) * Dt ≤ N * Dt :=
      Int.mul_le_mul_of_nonneg_right hN (by omega)
    have h3 : 0 ≤ Dt / 2 := by omega
    have h4 : Dt / 2 < Dt := by omega
    have h5 : N ≤ Dt * N := by nlinarith
    have hH : 0 < Dt * N := by omega
    have hiH : i < (Dt * N).toNat := by omega
    have ht : truncHalf (Dt + 2 * (Dt * N)) = Dt / 2 + Dt * N := by
      unfold truncHalf
      rw [Int.tdiv_eq_ediv (by omega) (by norm_num)]
      omega
    refine ⟨?_, ?_, ?_⟩
    · rw [HourlyT_apply, if_pos hiH, ht]
    · nlinarith
    · nlinarith
  · intro i hi
    rw [HourlyT_apply, if_neg (by omega)]
  · intro h
    rw [h, Int.ediv_one]

/-- The sampling lemma at `HOURSPERDAY = 24`, `Dt = 2`, output 3. -/
theorem HourlyT_sampling_witness :
    HourlyT 24 2 (fun _ => 18) (fun _ => (20 : ℚ)) (fun _ => 6) (fun _ => 5) (fun _ => 0) 3
      = hermint ((((2 / 2 + 24) + (3 : Nat) * 2 : Int)) : ℚ) 6
          (HourlyT.knots 24 2 (fun _ => 18) (fun _ => (20 : ℚ)) (fun _ => 6) (fun _ => 5)).x
          (HourlyT.knots 24 2 (fun _ => 18) (fun _ => (20 : ℚ)) (fun _ => 6)
            (fun _ => 5)).Tyc1 (HourlyT.yc2 6)
          (hermite 6
            (HourlyT.knots 24 2 (fun _ => 18) (fun _ => (20 : ℚ)) (fun _ => 6) (fun _ => 5)).x
            (HourlyT.knots 24 2 (fun _ => 18) (fun _ => (20 : ℚ)) (fun _ => 6)
              (fun _ => 5)).Tyc1 (HourlyT.yc2 6) (fun _ => 0) (fun _ => 0)).1
          (hermite 6
            (HourlyT.knots 24 2 (fun _ => 18) (fun _ => (20 : ℚ)) (fun _ => 6) (fun _ => 5)).x
            (HourlyT.knots 24 2 (fun _ => 18) (fun _ => (20 : ℚ)) (fun _ => 6)
              (fun _ => 5)).Tyc1 (HourlyT.yc2 6) (fun _ => 0) (fun _ => 0)).2 :=
  ((HourlyT_sampling 24 2 (by decide) (by decide) (fun _ => 18) (fun _ => (20 : ℚ))
    (fun _ => 6) (fun _ => 5) (fun _ => 0)).1 3 (by decide)).1

end Disaggregator

/-! ## The radiation estimator `calc_long_shortwave` -/

section RadiationProofs

variable {α : Type} [LinearOrderedField α]

/-- Daytime call with measured shortwave at or above the clear-sky value in use
(`Ic = I0` when shortwave is measured) and no measured longwave: the `else` branch of
the test `*shortwave < Ic` is taken. -/
theorem day_shortwave_ge (M : Libm α) (K : Consts α) (s : Rad α)
    (air_temp vp theta_l theta_s phi jdate hour : α) (HAVE_TSKC : Bool)
    (hI0 : 0 < calc_long_shortwave.I0 M K theta_l theta_s phi jdate hour)
    (hsw : calc_long_shortwave.I0 M K theta_l theta_s phi jdate hour ≤ s.shortwave) :
    calc_long_shortwave M K s air_temp vp theta_l theta_s phi jdate hour true false HAVE_TSKC
      = Except.ok { shortwave := s.shortwave,
                    longwave := calc_long_shortwave.lw M K s.last_tskc vp air_temp,
                    tskc := s.last_tskc, last_tskc := s.last_tskc } := by
  have z1 : (0.0 : α) = 0 := by norm_num
  have z2 : (0. : α) = 0 := by norm_num
  have hpos : ¬ s.shortwave < 0 := not_lt.mpr (hI0.le.trans hsw)
  unfold calc_long_shortwave
  simp only [z1, z2]
  simp [hI0, hpos, not_lt.mpr hsw]

/-- Daytime call without measured shortwave and without cloud fraction: `nrerror`. -/
theorem day_no_source_error (M : Libm α) (K : Consts α) (s : Rad α)
    (air_temp vp theta_l theta_s phi jdate hour : α) (HAVE_LONGWAVE : Bool)
    (hI0 : 0 < calc_long_shortwave.I0 M K theta_l theta_s phi jdate hour) :
    calc_long_shortwave M K s air_temp vp theta_l theta_s phi jdate hour false
        HAVE_LONGWAVE false
      = Except.error "ERROR: To compute long and shortwave radiation, need TSKC (cloud cover fraction), or measured shortwave" := by
  have z1 : (0.0 : α) = 0 := by norm_num
  unfold calc_long_shortwave
  simp only [z1]
  simp [hI0]

/-- Daytime call with measured shortwave and measured longwave: the final `else` of
the daytime branch is reached and `nrerror` is called, whatever `HAVE_TSKC` is. -/
theorem day_both_measured_error (M : Libm α) (K : Consts α) (s : Rad α)
    (air_temp vp theta_l theta_s phi jdate hour : α) (HAVE_TSKC : Bool)
    (hI0 : 0 < calc_long_shortwave.I0 M K theta_l theta_s phi jdate hour) :
    calc_long_shortwave M K s air_temp vp theta_l theta_s phi jdate hour true true HAVE_TSKC
      = Except.error "ERROR: To compute long and shortwave radiation, need TSKC (cloud cover fraction), or measured shortwave" := by
  have z1 : (0.0 : α) = 0 := by norm_num
  unfold calc_long_shortwave
  simp only [z1]
  simp [hI0]

/-- Night call (`I0 ≤ 0`) with none of the three quantities supplied: the routine
returns, with longwave computed from the content of the `tskc` slot. -/
theorem night_no_source_returns (M : Libm α) (K : Consts α) (s : Rad α)
    (air_temp vp theta_l theta_s phi jdate hour : α)
    (hI0 : ¬ 0 < calc_long_shortwave.I0 M K theta_l theta_s phi jdate hour) :
    calc_long_shortwave M K s air_temp vp theta_l theta_s phi jdate hour false false false
      = Except.ok { shortwave := 0,
                    longwave := calc_long_shortwave.lw M K s.tskc vp air_temp,
                    tskc := s.tskc, last_tskc := s.last_tskc } := by
  have z1 : (0.0 : α) = 0 := by norm_num
  unfold calc_long_shortwave
  simp only [z1]
  simp [hI0]

/-- C10. Fallback when measured shortwave reaches or exceeds the estimate: for a call
with `I0 > 0`, `HAVE_SHORTWAVE` true, `HAVE_LONGWAVE` false and measured shortwave at
or above the clear-sky value in use (`Ic = I0`), the call returns without error, the
returned `tskc` is the carried `last_tskc` from before the call, the carried value is
unchanged, and the result does not depend on the square-root function (none is
taken). -/
theorem shortwave_exceeds_fallback (M : Libm α) (K : Consts α) (s : Rad α)
    (air_temp vp theta_l theta_s phi jdate hour : α) (HAVE_TSKC : Bool)
    (hI0 : 0 < calc_long_shortwave.I0 M K theta_l theta_s phi jdate hour)
    (hsw : calc_long_shortwave.I0 M K theta_l theta_s phi jdate hour ≤ s.shortwave) :
    calc_long_shortwave M K s air_temp vp theta_l theta_s phi jdate hour true false HAVE_TSKC
        = Except.ok { shortwave := s.shortwave,
                      longwave := calc_long_shortwave.lw M K s.last_tskc vp air_temp,
                      tskc := s.last_tskc, last_tskc := s.last_tskc }
      ∧ ∀ sq : α → α,
          calc_long_shortwave { M with sqrt := sq } K s air_temp vp theta_l theta_s phi jdate
              hour true false HAVE_TSKC
            = calc_long_shortwave M K s air_temp vp theta_l theta_s phi jdate hour true false
                HAVE_TSKC := by
  refine ⟨day_shortwave_ge M K s air_temp vp theta_l theta_s phi jdate hour HAVE_TSKC hI0 hsw,
    fun sq => ?_⟩
  rw [day_shortwave_ge M K s air_temp vp theta_l theta_s phi jdate hour HAVE_TSKC hI0 hsw,
    day_shortwave_ge { M with sqrt := sq } K s air_temp vp theta_l theta_s phi jdate hour
      HAVE_TSKC hI0 hsw]
  rfl

/-- C9 (amended). Measured shortwave equal to clear sky: for a call with `I0 > 0`,
`HAVE_SHORTWAVE` true, `HAVE_LONGWAVE` false and measured shortwave exactly equal to
the clear-sky value in use (`Ic = I0`), the call returns and the cloud fraction
returned in `tskc` is the carried value `last_tskc` from before the call (the strict
test `*shortwave < Ic` sends equality to the fallback). -/
theorem shortwave_equal_clear_sky (M : Libm α) (K : Consts α) (s : Rad α)
    (air_temp vp theta_l theta_s phi jdate hour : α) (HAVE_TSKC : Bool)
    (hI0 : 0 < calc_long_shortwave.I0 M K theta_l theta_s phi jdate hour)
    (heq : s.shortwave = calc_long_shortwave.I0 M K theta_l theta_s phi jdate hour) :
    ∃ r, calc_long_shortwave M K s air_temp vp theta_l theta_s phi jdate hour true false
          HAVE_TSKC = Except.ok r
      ∧ r.tskc = s.last_tskc :=
  ⟨_, day_shortwave_ge M K s air_temp vp theta_l theta_s phi jdate hour HAVE_TSKC hI0
    (le_of_eq heq.symm), rfl⟩

end RadiationProofs

/-! ## The radiation estimator over the reals -/

section RealRadiation

/-- Hour angle at local solar midnight on the reference meridian: 180 degrees. -/
theorem tau_midnight (M : Libm ℝ) (K : Consts ℝ) (hf : M.toFloat = id) (hour : ℝ)
    (h : hour - K.SOLARTIMEOFFSET = 0) :
    calc_long_shortwave.tau M K 0 0 hour = 180 := by
  unfold calc_long_shortwave.tau
  simp only [hf, h]
  norm_num

/-- Hour angle at local solar noon on the reference meridian: 360 degrees. -/
theorem tau_noon (M : Libm ℝ) (K : Consts ℝ) (hf : M.toFloat = id) (hour : ℝ)
    (h : hour - K.SOLARTIMEOFFSET = 12) :
    calc_long_shortwave.tau M K 0 0 hour = 360 := by
  unfold calc_long_shortwave.tau
  simp only [hf, h]
  norm_num

/-- The cosine of the solstice declination, 23.45 degrees, is positive. -/
theorem cos_declination_pos : 0 < Real.cos (23.45 * Real.pi / 180.0) := by
  apply Real.cos_pos_of_mem_Ioo
  constructor <;> nlinarith [Real.pi_pos]

/-- On the equator at the June solstice (day 172) the sine of the solar altitude at
local solar midnight is the negated cosine of the declination. -/
theorem sin_alpha_midnight (M : Libm ℝ) (K : Consts ℝ) (hc : M.cos = Real.cos)
    (hs : M.sin = Real.sin) (hf : M.toFloat = id) (hpi : K.PI = Real.pi) (hour : ℝ)
    (h : hour - K.SOLARTIMEOFFSET = 0) :
    calc_long_shortwave.sin_alpha M K 0 0 0 172 hour
      = - Real.cos (23.45 * Real.pi / 180.0) := by
  unfold calc_long_shortwave.sin_alpha
  rw [tau_midnight M K hf hour h]
  simp only [hc, hs, hpi]
  have h1 : (180 : ℝ) * Real.pi / 180.0 = Real.pi := by norm_num
  have h2 : (0 : ℝ) * Real.pi / 180.0 = 0 := by norm_num
  have h3 : (2.0 : ℝ) * Real.pi / 365.0 * (172.0 - 172) = 0 := by norm_num
  rw [h1, h2, h3]
  simp

/-- On the equator at the June solstice the sine of the solar altitude at local solar
noon is the cosine of the declination. -/
theorem sin_alpha_noon (M : Libm ℝ) (K : Consts ℝ) (hc : M.cos = Real.cos)
    (hs : M.sin = Real.sin) (hf : M.toFloat = id) (hpi : K.PI = Real.pi) (hour : ℝ)
    (h : hour - K.SOLARTIMEOFFSET = 12) :
    calc_long_shortwave.sin_alpha M K 0 0 0 172 hour
      = Real.cos (23.45 * Real.pi / 180.0) := by
  unfold calc_long_shortwave.sin_alpha
  rw [tau_noon M K hf hour h]
  simp only [hc, hs, hpi]
  have h1 : (360 : ℝ) * Real.pi / 180.0 = 2 * Real.pi := by norm_num; ring
  have h2 : (0 : ℝ) * Real.pi / 180.0 = 0 := by norm_num
  have h3 : (2.0 : ℝ) * Real.pi / 365.0 * (172.0 - 172) = 0 := by norm_num
  rw [h1, h2, h3]
  simp

/-- The earth-sun radius factor is positive. -/
theorem radius_pos (c : ℝ) : 0 < 1.0 + 0.017 * Real.cos c := by
  have := Real.neg_one_le_cos c
  norm_num
  nlinarith

/-- The sun is below the horizon at local solar midnight on the equator, day 172. -/
theorem I0_midnight_neg (M : Libm ℝ) (K : Consts ℝ) (hc : M.cos = Real.cos)
    (hs : M.sin = Real.sin) (hf : M.toFloat = id) (hpi : K.PI = Real.pi) (hour : ℝ)
    (h : hour - K.SOLARTIMEOFFSET = 0) :
    calc_long_shortwave.I0 M K 0 0 0 172 hour < 0 := by
  unfold calc_long_shortwave.I0
  simp only [sin_alpha_midnight M K hc hs hf hpi hour h, hc]
  have hr := radius_pos (2 * K.PI / 365 * (186 - 172))
  have hd := cos_declination_pos
  apply div_neg_of_neg_of_pos _ hr
  apply div_neg_of_neg_of_pos _ hr
  nlinarith

/-- The sun is above the horizon at local solar noon on the equator, day 172. -/
theorem I0_noon_pos (M : Libm ℝ) (K : Consts ℝ) (hc : M.cos = Real.cos)
    (hs : M.sin = Real.sin) (hf : M.toFloat = id) (hpi : K.PI = Real.pi) (hour : ℝ)
    (h : hour - K.SOLARTIMEOFFSET = 12) :
    0 < calc_long_shortwave.I0 M K 0 0 0 172 hour := by
  unfold calc_long_shortwave.I0
  simp only [sin_alpha_noon M K hc hs hf hpi hour h, hc]
  have hr := radius_pos (2 * K.PI / 365 * (186 - 172))
  have hd := cos_declination_pos
  apply div_pos _ hr
  apply div_pos _ hr
  nlinarith

/-- Round trip through the two cloud-fraction formulas over the reals: the shortwave
of source line 83 for cloud fraction `c ≥ 0` and clear-sky value `Ic > 0`, fed to
source line 98 with the same `Ic`, gives `c / 10`. -/
theorem round_trip_tenth (M : Libm ℝ) (hq : M.sqrt = Real.sqrt) (c Ic : ℝ) (hc : 0 ≤ c)
    (hIc : 0 < Ic) :
    calc_long_shortwave.tskc_of_sw M (calc_long_shortwave.sw_of_tskc c Ic) Ic = c / 10 := by
  unfold calc_long_shortwave.tskc_of_sw calc_long_shortwave.sw_of_tskc
  rw [hq]
  have h : (1.0 - (1.0 - 0.65 * (c * c) / 100.) * Ic / Ic) / 0.65 = (c / 10) ^ 2 := by
    field_simp
    ring
  rw [h, Real.sqrt_sq (by positivity)]

/-- Witness for C10: local solar noon on the equator at day 172, measured shortwave
one unit above `I0`. -/
theorem shortwave_exceeds_fallback_witness :
    calc_long_shortwave
        (Libm.mk Real.cos Real.sin Real.arcsin Real.exp (fun v => Real.log v / Real.log 10)
          Real.rpow Real.sqrt id)
        (Consts.mk Real.pi 0 5.6696e-8 273.15 1)
        { shortwave := calc_long_shortwave.I0
            (Libm.mk Real.cos Real.sin Real.arcsin Real.exp
              (fun v => Real.log v / Real.log 10) Real.rpow Real.sqrt id)
            (Consts.mk Real.pi 0 5.6696e-8 273.15 1) 0 0 0 172 12 + 1,
          longwave := 0, tskc := 0, last_tskc := 1 / 2 }
        10 1 0 0 0 172 12 true false false
      = Except.ok
        { shortwave := calc_long_shortwave.I0
            (Libm.mk Real.cos Real.sin Real.arcsin Real.exp
              (fun v => Real.log v / Real.log 10) Real.rpow Real.sqrt id)
            (Consts.mk Real.pi 0 5.6696e-8 273.15 1) 0 0 0 172 12 + 1,
          longwave := calc_long_shortwave.lw
            (Libm.mk Real.cos Real.sin Real.arcsin Real.exp
              (fun v => Real.log v / Real.log 10) Real.rpow Real.sqrt id)
            (Consts.mk Real.pi 0 5.6696e-8 273.15 1) (1 / 2) 1 10,
          tskc := 1 / 2, last_tskc := 1 / 2 } :=
  (shortwave_exceeds_fallback _ _ _ 10 1 0 0 0 172 12 false
    (I0_noon_pos _ _ rfl rfl rfl rfl 12 (by norm_num)) (by simp)).1

/-- Witness for C9 (amended): local solar noon on the equator at day 172, measured
shortwave equal to `I0`, carried cloud fraction 1/2. -/
theorem shortwave_equal_clear_sky_witness :
    ∃ r, calc_long_shortwave
          (Libm.mk Real.cos Real.sin Real.arcsin Real.exp
            (fun v => Real.log v / Real.log 10) Real.rpow Real.sqrt id)
          (Consts.mk Real.pi 0 5.6696e-8 273.15 1)
          { shortwave := calc_long_shortwave.I0
              (Libm.mk Real.cos Real.sin Real.arcsin Real.exp
                (fun v => Real.log v / Real.log 10) Real.rpow Real.sqrt id)
              (Consts.mk Real.pi 0 5.6696e-8 273.15 1) 0 0 0 172 12,
            longwave := 0, tskc := 0, last_tskc := 1 / 2 }
          10 1 0 0 0 172 12 true false false = Except.ok r
      ∧ r.tskc = (1 / 2 : ℝ) :=
  shortwave_equal_clear_sky _ _ _ 10 1 0 0 0 172 12 false
    (I0_noon_pos _ _ rfl rfl rfl rfl 12 (by norm_num)) rfl

/-- C9, counterexample. At local solar noon on the equator at day 172 (`I0 > 0`), with
`HAVE_SHORTWAVE` true, `HAVE_LONGWAVE` false, measured shortwave exactly equal to the
clear-sky value in use and carried cloud fraction 1/2, the returned `tskc` is 1/2,
not 0. -/
theorem shortwave_equal_clear_sky_not_zero :
    0 < calc_long_shortwave.I0
          (Libm.mk Real.cos Real.sin Real.arcsin Real.exp
            (fun v => Real.log v / Real.log 10) Real.rpow Real.sqrt id)
          (Consts.mk Real.pi 0 5.6696e-8 273.15 1) 0 0 0 172 12
      ∧ ∃ r, calc_long_shortwave
          (Libm.mk Real.cos Real.sin Real.arcsin Real.exp
            (fun v => Real.log v / Real.log 10) Real.rpow Real.sqrt id)
          (Consts.mk Real.pi 0 5.6696e-8 273.15 1)
          { shortwave := calc_long_shortwave.I0
              (Libm.mk Real.cos Real.sin Real.arcsin Real.exp
                (fun v => Real.log v / Real.log 10) Real.rpow Real.sqrt id)
              (Consts.mk Real.pi 0 5.6696e-8 273.15 1) 0 0 0 172 12,
            longwave := 0, tskc := 0, last_tskc := 1 / 2 }
          10 1 0 0 0 172 12 true false false = Except.ok r
        ∧ r.tskc ≠ 0 := by
  have hI0 := I0_noon_pos
    (Libm.mk Real.cos Real.sin Real.arcsin Real.exp (fun v => Real.log v / Real.log 10)
      Real.rpow Real.sqrt id)
    (Consts.mk Real.pi 0 5.6696e-8 273.15 1) rfl rfl rfl rfl 12 (by norm_num)
  refine ⟨hI0, _, day_shortwave_ge _ _ _ 10 1 0 0 0 172 12 false hI0 le_rfl, ?_⟩
  norm_num

/-- C6, the failing input. At local solar midnight on the equator at day 172 (`I0 < 0`)
with `HAVE_SHORTWAVE`, `HAVE_LONGWAVE` and `HAVE_TSKC` all false, the routine returns
normally: shortwave 0 and a longwave computed from the content of the `tskc` slot,
which the caller did not supply. -/
theorem no_source_at_night_returns :
    calc_long_shortwave
        (Libm.mk Real.cos Real.sin Real.arcsin Real.exp (fun v => Real.log v / Real.log 10)
          Real.rpow Real.sqrt id)
        (Consts.mk Real.pi 0 5.6696e-8 273.15 1)
        { shortwave := 0, longwave := 0, tskc := 3 / 10, last_tskc := 7 / 10 }
        10 1 0 0 0 172 0 false false false
      = Except.ok
        { shortwave := 0,
          longwave := calc_long_shortwave.lw
            (Libm.mk Real.cos Real.sin Real.arcsin Real.exp
              (fun v => Real.log v / Real.log 10) Real.rpow Real.sqrt id)
            (Consts.mk Real.pi 0 5.6696e-8 273.15 1) (3 / 10) 1 10,
          tskc := 3 / 10, last_tskc := 7 / 10 } :=
  night_no_source_returns _ _ _ 10 1 0 0 0 172 0
    (not_lt.mpr (I0_midnight_neg _ _ rfl rfl rfl rfl 0 (by norm_num)).le)

/-- C7, the failing input. At local solar noon on the equator at day 172 (`I0 > 0`)
with measured shortwave, measured longwave and cloud fraction all supplied, the
routine calls `nrerror`. -/
theorem all_measured_at_noon_fails :
    calc_long_shortwave
        (Libm.mk Real.cos Real.sin Real.arcsin Real.exp (fun v => Real.log v / Real.log 10)
          Real.rpow Real.sqrt id)
        (Consts.mk Real.pi 0 5.6696e-8 273.15 1)
        { shortwave := 500, longwave := 300, tskc := 3 / 10, last_tskc := 7 / 10 }
        10 1 0 0 0 172 12 true true true
      = Except.error "ERROR: To compute long and shortwave radiation, need TSKC (cloud cover fraction), or measured shortwave" :=
  day_both_measured_error _ _ _ 10 1 0 0 0 172 12 true
    (I0_noon_pos _ _ rfl rfl rfl rfl 12 (by norm_num))

/-- C8, the failing input. Over the reals, cloud fraction `c = 1` and clear-sky value
`Ic = 1`: the shortwave of the cloud-cover branch fed back to the measured-shortwave
branch gives the cloud fraction 1/10, not 1. -/
theorem round_trip_of_one :
    calc_long_shortwave.tskc_of_sw
        (Libm.mk Real.cos Real.sin Real.arcsin Real.exp (fun v => Real.log v / Real.log 10)
          Real.rpow Real.sqrt id)
        (calc_long_shortwave.sw_of_tskc 1 1) 1 = 1 / 10
      ∧ (1 / 10 : ℝ) ≠ 1 :=
  ⟨round_trip_tenth _ rfl 1 1 (by norm_num) (by norm_num), by norm_num⟩

end RealRadiation

/-! ## Bracketing, shape preservation and offset invariance -/

section Shape

variable {α : Type} [LinearOrderedField α]

/-- C16. Bracketing by the bisection of `hermint`: for `n ≥ 2` strictly increasing
knots and any query `xbar` the loop ends with `khi = klo + 1` and `klo ≤ n-2`; when
`x[0] ≤ xbar`, `klo` is the largest index in `0..n-2` whose knot is not after `xbar`,
so that `x[klo] ≤ xbar < x[klo+1]` when `xbar < x[n-1]` and `klo = n-2` when
`x[n-1] ≤ xbar`; when `xbar < x[0]`, `klo = 0`. -/
theorem search_brackets_query (n : Nat) (hn : 2 ≤ n) (x : Nat → α)
    (hx : ∀ i j, i < j → j < n → x i < x j) (xbar : α) :
    (hermint.search x xbar 0 (n - 1)).2 = (hermint.search x xbar 0 (n - 1)).1 + 1
    ∧ (hermint.search x xbar 0 (n - 1)).1 ≤ n - 2
    ∧ (x 0 ≤ xbar →
        x (hermint.search x xbar 0 (n - 1)).1 ≤ xbar
        ∧ ∀ k, k ≤ n - 2 → x k ≤ xbar → k ≤ (hermint.search x xbar 0 (n - 1)).1)
    ∧ (x 0 ≤ xbar → xbar < x (n - 1) →
        x (hermint.search x xbar 0 (n - 1)).1 ≤ xbar
        ∧ xbar < x ((hermint.search x xbar 0 (n - 1)).1 + 1))
    ∧ (x (n - 1) ≤ xbar → (hermint.search x xbar 0 (n - 1)).1 = n - 2)
    ∧ (xbar < x 0 → (hermint.search x xbar 0 (n - 1)).1 = 0) := by
  have hinv := search_invariant x xbar (fun k => k = 0 ∨ x k ≤ xbar)
    (fun k => k = n - 1 ∨ xbar < x k) (fun k hk => Or.inr hk) (fun k hk => Or.inr hk)
    (n - 1) (n - 1) 0 (n - 1) (by omega) (by omega) le_rfl (Or.inl rfl) (Or.inl rfl)
  obtain ⟨e, hle, hlo, hhi⟩ := hinv
  rw [e] at hle hhi
  generalize (hermint.search x xbar 0 (n - 1)).1 = klo at e hle hlo hhi
  have hlo' : x 0 ≤ xbar → x klo ≤ xbar := by
    intro h0
    rcases hlo with h | h
    · rw [h]; exact h0
    · exact h
  refine ⟨e, by omega, ?_, ?_, ?_, ?_⟩
  · intro h0
    refine ⟨hlo' h0, ?_⟩
    intro k hk hxk
    rcases hhi with h | h
    · omega
    · by_contra hc
      have h1 : klo + 1 ≤ k := by omega
      have := knot_le_of_index_le n x hx (klo + 1) k h1 (by omega)
      exact absurd (lt_of_lt_of_le h this) (not_lt.mpr hxk)
  · intro h0 hlast
    refine ⟨hlo' h0, ?_⟩
    rcases hhi with h | h
    · rw [h]; exact hlast
    · exact h
  · intro hlast
    rcases hhi with h | h
    · omega
    · exfalso
      have := knot_le_of_index_le n x hx (klo + 1) (n - 1) (by omega) (by omega)
      exact absurd (lt_of_lt_of_le h this) (not_lt.mpr hlast)
  · intro hfirst
    rcases hlo with h | h
    · exact h
    · by_contra hc
      have := knot_le_of_index_le n x hx 0 klo (by omega) (by omega)
      exact absurd (lt_of_lt_of_le hfirst this) (not_lt.mpr h)

/-- Witness for C16: knots at times 0, 1, 2 over the rationals, query 3/2. -/
theorem search_brackets_query_witness :
    (hermint.search (fun k : Nat => (k : ℚ)) (3 / 2) 0 (3 - 1)).2
      = (hermint.search (fun k : Nat => (k : ℚ)) (3 / 2) 0 (3 - 1)).1 + 1 :=
  (search_brackets_query 3 (by decide) (fun k => (k : ℚ))
    (fun i j hij _ => Nat.cast_lt.mpr hij) (3 / 2)).1

/-- On the closed segment `[x[i], x[i+1]]` the interpolant is the cubic of segment
`i`, the right end included. -/
theorem hermint_eq_piece_closed (n : Nat) (hn : 2 ≤ n) (x y d c3 c4 : Nat → α)
    (hx : ∀ i j, i < j → j < n → x i < x j) (i : Nat) (hi : i < n - 1) (xbar : α)
    (h1 : x i ≤ xbar) (h2 : xbar ≤ x (i + 1)) :
    hermint xbar n x y d (hermite n x y d c3 c4).1 (hermite n x y d c3 c4).2
      = y i + (xbar - x i) * (d i + (xbar - x i)
          * (coef3 x y d i + (xbar - x i) * coef4 x y d i)) := by
  rcases lt_or_eq_of_le h2 with hlt | heq
  · exact hermint_eq_piece n hn x y d c3 c4 hx xbar i (by omega) (Or.inr h1) (Or.inr hlt)
  · have hdx : x (i + 1) - x i ≠ 0 :=
      sub_ne_zero.mpr (ne_of_gt (hx i (i + 1) (by omega) (by omega)))
    rw [heq, hermint_at_knot n hn x y d c3 c4 hx (i + 1) (by omega),
      cubic_right_value x y d i hdx]

/-- The cubic `u ↦ u²(3 - 2u)` is non-decreasing on `[0, 1]`. -/
theorem smoothstep_mono (u v : α) (hu : 0 ≤ u) (huv : u ≤ v) (hv : v ≤ 1) :
    u * u * (3 - 2 * u) ≤ v * v * (3 - 2 * v) := by
  have hv0 : 0 ≤ v := hu.trans huv
  have hu1 : u ≤ 1 := huv.trans hv
  nlinarith [mul_nonneg (sub_nonneg.mpr huv) (mul_nonneg hu (sub_nonneg.mpr hu1)),
    mul_nonneg (sub_nonneg.mpr huv) (mul_nonneg hv0 (sub_nonneg.mpr hv)),
    mul_nonneg (sub_nonneg.mpr huv) (mul_nonneg hu (sub_nonneg.mpr hv)),
    mul_nonneg (sub_nonneg.mpr huv) (mul_nonneg hv0 (sub_nonneg.mpr hu1)),
    mul_nonneg (sub_nonneg.mpr huv) hu, mul_nonneg (sub_nonneg.mpr huv) hv0]

/-- With zero derivatives at both ends the cubic of a segment is the left value plus
the rise times `u²(3 - 2u)`, `u` the relative position in the segment. -/
theorem piece_zero_slope (x y d : Nat → α) (i : Nat) (hdx : x (i + 1) - x i ≠ 0)
    (hd0 : d i = 0) (hd1 : d (i + 1) = 0) (s : α) :
    y i + s * (d i + s * (coef3 x y d i + s * coef4 x y d i))
      = y i + (y (i + 1) - y i)
          * (s / (x (i + 1) - x i) * (s / (x (i + 1) - x i))
              * (3 - 2 * (s / (x (i + 1) - x i)))) := by
  unfold coef3 coef4
  rw [hd0, hd1]
  field_simp
  ring

/-- Value of the interpolant on a closed segment with zero end derivatives. -/
theorem hermint_zero_slope (n : Nat) (hn : 2 ≤ n) (x y d c3 c4 : Nat → α)
    (hx : ∀ i j, i < j → j < n → x i < x j) (hd : ∀ k, k < n → d k = 0)
    (i : Nat) (hi : i < n - 1) (xbar : α) (h1 : x i ≤ xbar) (h2 : xbar ≤ x (i + 1)) :
    hermint xbar n x y d (hermite n x y d c3 c4).1 (hermite n x y d c3 c4).2
      = y i + (y (i + 1) - y i)
          * ((xbar - x i) / (x (i + 1) - x i) * ((xbar - x i) / (x (i + 1) - x i))
              * (3 - 2 * ((xbar - x i) / (x (i + 1) - x i)))) := by
  have hdx : x (i + 1) - x i ≠ 0 :=
    sub_ne_zero.mpr (ne_of_gt (hx i (i + 1) (by omega) (by omega)))
  rw [hermint_eq_piece_closed n hn x y d c3 c4 hx i hi xbar h1 h2,
    piece_zero_slope x y d i hdx (hd i (by omega)) (hd (i + 1) (by omega))]

/-- Monotone variation of the interpolant along a segment with zero end derivatives:
in the direction of the step from `y[i]` to `y[i+1]`. -/
theorem hermint_segment_mono (n : Nat) (hn : 2 ≤ n) (x y d c3 c4 : Nat → α)
    (hx : ∀ i j, i < j → j < n → x i < x j) (hd : ∀ k, k < n → d k = 0)
    (i : Nat) (hi : i < n - 1) (s t : α) (h1 : x i ≤ s) (hst : s ≤ t)
    (h2 : t ≤ x (i + 1)) :
    (y i ≤ y (i + 1) →
      hermint s n x y d (hermite n x y d c3 c4).1 (hermite n x y d c3 c4).2
        ≤ hermint t n x y d (hermite n x y d c3 c4).1 (hermite n x y d c3 c4).2)
    ∧ (y (i + 1) ≤ y i →
      hermint t n x y d (hermite n x y d c3 c4).1 (hermite n x y d c3 c4).2
        ≤ hermint s n x y d (hermite n x y d c3 c4).1 (hermite n x y d c3 c4).2) := by
  have hdx : 0 < x (i + 1) - x i := sub_pos.mpr (hx i (i + 1) (by omega) (by omega))
  rw [hermint_zero_slope n hn x y d c3 c4 hx hd i hi s h1 (hst.trans h2),
    hermint_zero_slope n hn x y d c3 c4 hx hd i hi t (h1.trans hst) h2]
  have hu0 : 0 ≤ (s - x i) / (x (i + 1) - x i) := div_nonneg (sub_nonneg.mpr h1) hdx.le
  have huv : (s - x i) / (x (i + 1) - x i) ≤ (t - x i) / (x (i + 1) - x i) :=
    div_le_div_of_nonneg_right (by linarith) hdx.le
  have hv1 : (t - x i) / (x (i + 1) - x i) ≤ 1 := by
    rw [div_le_one hdx]; linarith
  have hm := smoothstep_mono _ _ hu0 huv hv1
  constructor
  · intro hy
    have := mul_le_mul_of_nonneg_left hm (sub_nonneg.mpr hy)
    linarith
  · intro hy
    have := mul_le_mul_of_nonneg_left hm (sub_nonneg.mpr hy)
    linarith

/-- No overshoot on a segment with zero end derivatives: the interpolant stays between
the two knot values. -/
theorem hermint_segment_between (n : Nat) (hn : 2 ≤ n) (x y d c3 c4 : Nat → α)
    (hx : ∀ i j, i < j → j < n → x i < x j) (hd : ∀ k, k < n → d k = 0)
    (i : Nat) (hi : i < n - 1) (xbar : α) (h1 : x i ≤ xbar) (h2 : xbar ≤ x (i + 1)) :
    min (y i) (y (i + 1))
        ≤ hermint xbar n x y d (hermite n x y d c3 c4).1 (hermite n x y d c3 c4).2
      ∧ hermint xbar n x y d (hermite n x y d c3 c4).1 (hermite n x y d c3 c4).2
        ≤ max (y i) (y (i + 1)) := by
  have hxi : x i < x (i + 1) := hx i (i + 1) (by omega) (by omega)
  have hl := hermint_segment_mono n hn x y d c3 c4 hx hd i hi (x i) xbar le_rfl h1 h2
  have hr := hermint_segment_mono n hn x y d c3 c4 hx hd i hi xbar (x (i + 1)) h1 h2 le_rfl
  rw [hermint_at_knot n hn x y d c3 c4 hx i (by omega)] at hl
  rw [hermint_at_knot n hn x y d c3 c4 hx (i + 1) (by omega)] at hr
  rcases le_total (y i) (y (i + 1)) with hy | hy
  · rw [min_eq_left hy, max_eq_right hy]
    exact ⟨hl.1 hy, hr.1 hy⟩
  · rw [min_eq_right hy, max_eq_left hy]
    exact ⟨hr.2 hy, hl.2 hy⟩

/-- Every knot value of `HourlyT` is one of the six input temperatures, so a common
lower and upper bound of the inputs bounds the knot values. -/
theorem knots_y_bounds (H Dt : Int) (TmaxHour : Nat → Int) (Tmax : Nat → α)
    (TminHour : Nat → Int) (Tmin : Nat → α) (L U : α)
    (hb : ∀ k, k < 3 → L ≤ Tmin k ∧ Tmin k ≤ U ∧ L ≤ Tmax k ∧ Tmax k ≤ U)
    (j : Nat) (hj : j < 6) :
    L ≤ (HourlyT.knots H Dt TmaxHour Tmax TminHour Tmin).Tyc1 j
      ∧ (HourlyT.knots H Dt TmaxHour Tmax TminHour Tmin).Tyc1 j ≤ U := by
  have e0 := knots_y_even H Dt TmaxHour Tmax TminHour Tmin 0 (by omega)
  have e1 := knots_y_odd H Dt TmaxHour Tmax TminHour Tmin 0 (by omega)
  have e2 := knots_y_even H Dt TmaxHour Tmax TminHour Tmin 1 (by omega)
  have e3 := knots_y_odd H Dt TmaxHour Tmax TminHour Tmin 1 (by omega)
  have e4 := knots_y_even H Dt TmaxHour Tmax TminHour Tmin 2 (by omega)
  have e5 := knots_y_odd H Dt TmaxHour Tmax TminHour Tmin 2 (by omega)
  have b0 := hb 0 (by omega)
  have b1 := hb 1 (by omega)
  have b2 := hb 2 (by omega)
  simp only [Nat.mul_zero, Nat.mul_one, Nat.zero_add, Nat.reduceMul, Nat.reduceAdd]
    at e0 e1 e2 e3 e4 e5
  interval_cases j
  · rw [e0]; split_ifs <;> simp [b0]
  · rw [e1]; split_ifs <;> simp [b0]
  · rw [e2]; split_ifs <;> simp [b1]
  · rw [e3]; split_ifs <;> simp [b1]
  · rw [e4]; split_ifs <;> simp [b2]
  · rw [e5]; split_ifs <;> simp [b2]

/-- With `HOURSPERDAY = 24`, `Dt = 1` and distinct hours in `0..23`, every output of
`HourlyT` lies between any common bounds of the six input temperatures. -/
theorem HourlyT_hourly_bounds (TmaxHour : Nat → Int) (Tmax : Nat → α)
    (TminHour : Nat → Int) (Tmin : Nat → α) (Tair : Nat → α)
    (hmin : ∀ k, k < 3 → 0 ≤ TminHour k ∧ TminHour k < 24)
    (hmax : ∀ k, k < 3 → 0 ≤ TmaxHour k ∧ TmaxHour k < 24)
    (hne : ∀ k, k < 3 → TminHour k ≠ TmaxHour k) (L U : α)
    (hb : ∀ k, k < 3 → L ≤ Tmin k ∧ Tmin k ≤ U ∧ L ≤ Tmax k ∧ Tmax k ≤ U)
    (i : Nat) (hi : i < 24) :
    L ≤ HourlyT 24 1 TmaxHour Tmax TminHour Tmin Tair i
      ∧ HourlyT 24 1 TmaxHour Tmax TminHour Tmin Tair i ≤ U := by
  have hx := strict_of_adjacent 6 _
    (@knots_adjacent α _ 24 1 TmaxHour Tmax TminHour Tmin hmin hmax hne)
  have ht : truncHalf (1 + 2 * 24) = 24 := by decide
  have ht1 : truncHalf 1 = 0 := by decide
  have hi' : i < (24 : Int).toNat := by simpa using hi
  rw [HourlyT_apply, if_pos hi', ht]
  have e0 := @knots_x_even α _ 24 1 TmaxHour Tmax TminHour Tmin 0 (by omega)
  have e5 := @knots_x_odd α _ 24 1 TmaxHour Tmax TminHour Tmin 2 (by omega)
  simp only [Nat.mul_zero, Nat.reduceMul, Nat.reduceAdd, ht1] at e0 e5
  have a0 := hmin 0 (by omega)
  have a2 := hmin 2 (by omega)
  have b0 := hmax 0 (by omega)
  have b2 := hmax 2 (by omega)
  have hq0 : (HourlyT.knots 24 1 TmaxHour Tmax TminHour Tmin).x 0
      ≤ (((24 + (i : Int) * 1 : Int)) : α) := by
    rw [e0, Int.cast_le]; split_ifs <;> push_cast <;> omega
  have hq5 : (((24 + (i : Int) * 1 : Int)) : α)
      ≤ (HourlyT.knots 24 1 TmaxHour Tmax TminHour Tmin).x 5 := by
    rw [e5, Int.cast_le]; split_ifs <;> push_cast <;> omega
  obtain ⟨s1, s2, s3⟩ := search_bracket
    (HourlyT.knots 24 1 TmaxHour Tmax TminHour Tmin).x (((24 + (i : Int) * 1 : Int)) : α)
    6 (by norm_num)
  generalize (hermint.search (HourlyT.knots 24 1 TmaxHour Tmax TminHour Tmin).x
    (((24 + (i : Int) * 1 : Int)) : α) 0 (6 - 1)).1 = klo at s1 s2 s3
  have hlo : (HourlyT.knots 24 1 TmaxHour Tmax TminHour Tmin).x klo
      ≤ (((24 + (i : Int) * 1 : Int)) : α) := by
    rcases s2 with h | h
    · rw [h]; exact hq0
    · exact h
  have hhi : (((24 + (i : Int) * 1 : Int)) : α)
      ≤ (HourlyT.knots 24 1 TmaxHour Tmax TminHour Tmin).x (klo + 1) := by
    rcases s3 with h | h
    · rw [h]; exact hq5
    · exact h.le
  have hbt := hermint_segment_between 6 (by norm_num)
    (HourlyT.knots 24 1 TmaxHour Tmax TminHour Tmin).x
    (HourlyT.knots 24 1 TmaxHour Tmax TminHour Tmin).Tyc1 (HourlyT.yc2 6)
    (fun _ => 0) (fun _ => 0) hx (fun k _ => yc2_zero 6 k) klo (by omega) _ hlo hhi
  have y1 := knots_y_bounds 24 1 TmaxHour Tmax TminHour Tmin L U hb klo (by omega)
  have y2 := knots_y_bounds 24 1 TmaxHour Tmax TminHour Tmin L U hb (klo + 1) (by omega)
  exact ⟨(le_min y1.1 y2.1).trans hbt.1, hbt.2.trans (max_le y1.2 y2.2)⟩

/-- C15. Shape preservation: for `n ≥ 2` strictly increasing knots with all-zero
derivatives and a query `xbar` in a segment `[x[i], x[i+1]]`, the value of `hermint`
lies between `y[i]` and `y[i+1]` inclusive, and it varies monotonically along the
segment (non-decreasing when `y[i] ≤ y[i+1]`, non-increasing when `y[i+1] ≤ y[i]`);
consequently, with `Dt = 1`, `HOURSPERDAY = 24` and distinct hours of minimum and
maximum in `0..23`, every temperature written by `HourlyT` lies between the smallest
and the largest of the six input temperatures. -/
theorem hermint_shape_preserving :
    (∀ (n : Nat) (x y d c3 c4 : Nat → α), 2 ≤ n → (∀ i j, i < j → j < n → x i < x j) →
      (∀ k, k < n → d k = 0) → ∀ i, i < n - 1 →
      (∀ xbar, x i ≤ xbar → xbar ≤ x (i + 1) →
        min (y i) (y (i + 1))
            ≤ hermint xbar n x y d (hermite n x y d c3 c4).1 (hermite n x y d c3 c4).2
          ∧ hermint xbar n x y d (hermite n x y d c3 c4).1 (hermite n x y d c3 c4).2
            ≤ max (y i) (y (i + 1)))
      ∧ (∀ s t, x i ≤ s → s ≤ t → t ≤ x (i + 1) →
        (y i ≤ y (i + 1) →
          hermint s n x y d (hermite n x y d c3 c4).1 (hermite n x y d c3 c4).2
            ≤ hermint t n x y d (hermite n x y d c3 c4).1 (hermite n x y d c3 c4).2)
        ∧ (y (i + 1) ≤ y i →
          hermint t n x y d (hermite n x y d c3 c4).1 (hermite n x y d c3 c4).2
            ≤ hermint s n x y d (hermite n x y d c3 c4).1 (hermite n x y d c3 c4).2)))
    ∧ (∀ (TmaxHour : Nat → Int) (Tmax : Nat → α) (TminHour : Nat → Int) (Tmin : Nat → α)
        (Tair : Nat → α),
        (∀ k, k < 3 → 0 ≤ TminHour k ∧ TminHour k < 24) →
        (∀ k, k < 3 → 0 ≤ TmaxHour k ∧ TmaxHour k < 24) →
        (∀ k, k < 3 → TminHour k ≠ TmaxHour k) →
        ∀ L U : α, (∀ k, k < 3 → L ≤ Tmin k ∧ Tmin k ≤ U ∧ L ≤ Tmax k ∧ Tmax k ≤ U) →
        ∀ i, i < 24 →
          L ≤ HourlyT 24 1 TmaxHour Tmax TminHour Tmin Tair i
            ∧ HourlyT 24 1 TmaxHour Tmax TminHour Tmin Tair i ≤ U) := by
  refine ⟨?_, ?_⟩
  · intro n x y d c3 c4 hn hx hd i hi
    exact ⟨fun xbar h1 h2 =>
        hermint_segment_between n hn x y d c3 c4 hx hd i hi xbar h1 h2,
      fun s t h1 hst h2 => hermint_segment_mono n hn x y d c3 c4 hx hd i hi s t h1 hst h2⟩
  · intro TmaxHour Tmax TminHour Tmin Tair hmin hmax hne L U hb i hi
    exact HourlyT_hourly_bounds TmaxHour Tmax TminHour Tmin Tair hmin hmax hne L U hb i hi

/-- Witness for C15: minimum 5 at hour 6 and maximum 20 at hour 18 on each day; the
output of hour 10 lies between 5 and 20. -/
theorem hermint_shape_preserving_witness :
    (5 : ℚ) ≤ HourlyT 24 1 (fun _ => 18) (fun _ => (20 : ℚ)) (fun _ => 6) (fun _ => 5)
        (fun _ => 0) 10
      ∧ HourlyT 24 1 (fun _ => 18) (fun _ => (20 : ℚ)) (fun _ => 6) (fun _ => 5)
        (fun _ => 0) 10 ≤ 20 :=
  (@hermint_shape_preserving ℚ _).2 (fun _ => 18) (fun _ => 20) (fun _ => 6)
    (fun _ => 5) (fun _ => 0) (fun _ _ => by norm_num) (fun _ _ => by norm_num)
    (fun _ _ => by norm_num) 5 20 (fun _ _ => by norm_num) 10 (by decide)

end Shape

/-! ## Offset invariance -/

section Offset

variable {α : Type} [LinearOrderedField α]

/-- The bisection of `hermint` is unchanged when the knot times it can read and the
query are shifted by the same offset `c`. -/
theorem search_shift (x x' : Nat → α) (xbar c : α) (hi0 : Nat)
    (h : ∀ j, j ≤ hi0 → x' j = x j + c) :
    ∀ d klo khi, khi - klo ≤ d → khi ≤ hi0 →
      hermint.search x' (xbar + c) klo khi = hermint.search x xbar klo khi := by
  intro d
  induction d with
  | zero =>
    intro klo khi hd _
    rw [hermint.search, hermint.search]
    have : ¬ khi - klo > 1 := by omega
    simp only [this, if_false]
  | succ d ih =>
    intro klo khi hd hle
    rw [hermint.search]
    conv_rhs => rw [hermint.search]
    by_cases hgap : khi - klo > 1
    · have hk1 : klo < (khi + klo) >>> 1 := by
        simp only [Nat.shiftRight_eq_div_pow]; omega
      have hk2 : (khi + klo) >>> 1 < khi := by
        simp only [Nat.shiftRight_eq_div_pow]; omega
      simp only [hgap, if_true]
      rw [h _ (by omega)]
      by_cases hx : x ((khi + klo) >>> 1) > xbar
      · have hx' : x ((khi + klo) >>> 1) + c > xbar + c := by linarith
        simp only [hx, hx', if_true]
        exact ih klo _ (by omega) (by omega)
      · have hx' : ¬ x ((khi + klo) >>> 1) + c > xbar + c := by
          intro hc; exact hx (by linarith)
        simp only [hx, hx', if_false]
        exact ih _ khi (by omega) hle
    · simp only [hgap, if_false]

/-- The segment index found by the bisection started from `(0, hi0)` is at most
`hi0`. -/
theorem search_fst_le (x : Nat → α) (xbar : α) (hi0 : Nat) :
    (hermint.search x xbar 0 hi0).1 ≤ hi0 := by
  rcases Nat.eq_zero_or_pos hi0 with h0 | hpos
  · subst h0
    rw [hermint.search]
    simp
  · have h := search_invariant x xbar (fun _ => True) (fun _ => True) (fun _ _ => trivial)
      (fun _ _ => trivial) hi0 hi0 0 hi0 (by omega) hpos le_rfl trivial trivial
    omega

/-- The coefficient arrays computed by `hermite` are unchanged when the knot times
`x[0..n-1]` are shifted by `c`. -/
theorem hermite_shift (n : Nat) (x x' y d c3 c4 : Nat → α) (c : α)
    (h : ∀ j, j ≤ n - 1 → x' j = x j + c) :
    hermite n x' y d c3 c4 = hermite n x y d c3 c4 := by
  refine Prod.ext ?_ ?_
  · funext i
    rw [hermite_yc3, hermite_yc3]
    by_cases hi : i < n - 1
    · simp only [hi, if_true, coef3]
      rw [h i (by omega), h (i + 1) (by omega)]
      simp only [add_sub_add_right_eq_sub]
    · simp only [hi, if_false]
  · funext i
    rw [hermite_yc4, hermite_yc4]
    by_cases hi : i < n - 1
    · simp only [hi, if_true, coef4]
      rw [h i (by omega), h (i + 1) (by omega)]
      simp only [add_sub_add_right_eq_sub]
    · simp only [hi, if_false]

/-- The value of `hermint` is unchanged when the knot times `x[0..n-1]` and the query
are shifted by `c`. -/
theorem hermint_shift (n : Nat) (x x' y d e3 e4 : Nat → α) (c xbar : α)
    (h : ∀ j, j ≤ n - 1 → x' j = x j + c) :
    hermint (xbar + c) n x' y d e3 e4 = hermint xbar n x y d e3 e4 := by
  unfold hermint
  simp only [search_shift x x' xbar c (n - 1) h (n - 1) 0 (n - 1) (by omega) le_rfl]
  rw [h _ (search_fst_le x xbar (n - 1))]
  simp only [add_sub_add_right_eq_sub]

/-- The time of each of the six knots in the variant with a `double` offset is the
time in `HourlyT` shifted by `off - (int)(0.5*Dt)`. -/
theorem knotsReal_x (off : α) (H Dt : Int) (TmaxHour : Nat → Int) (Tmax : Nat → α)
    (TminHour : Nat → Int) (Tmin : Nat → α) (j : Nat) (hj : j ≤ 6 - 1) :
    (HourlyT.knotsReal off H TmaxHour Tmax TminHour Tmin).x j
      = (HourlyT.knots H Dt TmaxHour Tmax TminHour Tmin).x j
          + (off - ((truncHalf Dt : Int) : α)) := by
  simp only [HourlyT.knots, HourlyT.knotsReal, List.range_succ, List.range_zero,
    List.nil_append, List.foldl_cons, List.foldl_nil, List.cons_append, HourlyT.fillBody,
    HourlyT.fillBodyReal]
  have hj6 : j < 6 := by omega
  interval_cases j <;> split_ifs <;> simp [Function.update] <;> ring

/-- The knot values do not depend on the offset. -/
theorem knotsReal_Tyc1 (off : α) (H Dt : Int) (TmaxHour : Nat → Int) (Tmax : Nat → α)
    (TminHour : Nat → Int) (Tmin : Nat → α) :
    (HourlyT.knotsReal off H TmaxHour Tmax TminHour Tmin).Tyc1
      = (HourlyT.knots H Dt TmaxHour Tmax TminHour Tmin).Tyc1 := by
  simp only [HourlyT.knots, HourlyT.knotsReal, List.range_succ, List.range_zero,
    List.nil_append, List.foldl_cons, List.foldl_nil, List.cons_append, HourlyT.fillBody,
    HourlyT.fillBodyReal]
  split_ifs <;> rfl

/-- State of the interpolation loop with a `double` query time after `m` iterations. -/
theorem sample_fold_real (Dt : Int) (n : Nat) (x y d c3 c4 : Nat → α) (h0 : α)
    (Tair : Nat → α) (m : Nat) :
    (List.range m).foldl (HourlyT.sampleBodyReal Dt n x y d c3 c4) (h0, Tair)
      = (h0 + m * Dt,
         fun i => if i < m then hermint (h0 + i * Dt) n x y d c3 c4 else Tair i) := by
  induction m with
  | zero => simp
  | succ m ih =>
    rw [List.range_succ, List.foldl_append, ih]
    simp only [List.foldl_cons, List.foldl_nil, HourlyT.sampleBodyReal]
    refine Prod.ext ?_ ?_
    · simp only [Nat.cast_add, Nat.cast_one]; ring
    · funext i
      by_cases h : i = m
      · subst h; simp
      · simp only [Function.update_noteq h]
        by_cases h1 : i < m
        · simp [h1, Nat.lt_succ_of_lt h1]
        · have : ¬ i < m + 1 := by omega
          simp [h1, this]

/-- For a step `Dt ≥ 0` the variant of `HourlyT` with an arbitrary `double` offset
writes the same series as `HourlyT`. -/
theorem HourlyT_offset_eq (off : α) (H Dt : Int) (hDt : 0 ≤ Dt) (TmaxHour : Nat → Int)
    (Tmax : Nat → α) (TminHour : Nat → Int) (Tmin : Nat → α) (Tair : Nat → α) :
    HourlyT_with_offset off H Dt TmaxHour Tmax TminHour Tmin Tair
      = HourlyT H Dt TmaxHour Tmax TminHour Tmin Tair := by
  funext i
  rw [HourlyT_apply]
  unfold HourlyT_with_offset
  simp only [sample_fold_real]
  by_cases hi : i < H.toNat
  · simp only [hi, if_true]
    have hH : 0 < H := by omega
    have ht : truncHalf (Dt + 2 * H) = truncHalf Dt + H := by
      unfold truncHalf
      rw [Int.tdiv_eq_ediv (by omega) (by norm_num), Int.tdiv_eq_ediv hDt (by norm_num)]
      omega
    have hshift : ∀ j, j ≤ 6 - 1 →
        (HourlyT.knotsReal off H TmaxHour Tmax TminHour Tmin).x j
          = (HourlyT.knots H Dt TmaxHour Tmax TminHour Tmin).x j
              + (off - ((truncHalf Dt : Int) : α)) :=
      fun j hj => knotsReal_x off H Dt TmaxHour Tmax TminHour Tmin j hj
    have hq : off + (H : α) + (i : α) * (Dt : α)
        = (((truncHalf (Dt + 2 * H) + i * Dt : Int)) : α)
            + (off - ((truncHalf Dt : Int) : α)) := by
      rw [ht]; push_cast; ring
    rw [hq, hermite_shift 6 _ _ _ _ _ _ _ hshift,
      knotsReal_Tyc1 off H Dt TmaxHour Tmax TminHour Tmin]
    exact hermint_shift 6 _ _ _ _ _ _ _ _ hshift
  · simp only [hi, if_false]

/-- C18. Offset invariance: adding an offset `c` to all knot times and to the query
leaves the coefficients of `hermite` and the result of `hermint` unchanged; hence, for
a step `Dt ≥ 0`, the series written by `HourlyT` is the one obtained with any other
half-step offset used in both loops, in particular with the untruncated half step
`Dt/2` in place of `(int)(0.5*Dt)`. -/
theorem offset_invariance :
    (∀ (n : Nat) (x y d c3 c4 : Nat → α) (c xbar : α),
      hermite n (fun j => x j + c) y d c3 c4 = hermite n x y d c3 c4
      ∧ hermint (xbar + c) n (fun j => x j + c) y d
            (hermite n (fun j => x j + c) y d c3 c4).1
            (hermite n (fun j => x j + c) y d c3 c4).2
          = hermint xbar n x y d (hermite n x y d c3 c4).1 (hermite n x y d c3 c4).2)
    ∧ (∀ (H Dt : Int) (TmaxHour : Nat → Int) (Tmax : Nat → α) (TminHour : Nat → Int)
        (Tmin : Nat → α) (Tair : Nat → α), 0 ≤ Dt →
        (∀ off : α, HourlyT_with_offset off H Dt TmaxHour Tmax TminHour Tmin Tair
          = HourlyT H Dt TmaxHour Tmax TminHour Tmin Tair)
        ∧ HourlyT_with_offset ((Dt : α) / 2) H Dt TmaxHour Tmax TminHour Tmin Tair
          = HourlyT H Dt TmaxHour Tmax TminHour Tmin Tair) := by
  refine ⟨?_, ?_⟩
  · intro n x y d c3 c4 c xbar
    have hs : hermite n (fun j => x j + c) y d c3 c4 = hermite n x y d c3 c4 :=
      hermite_shift n x (fun j => x j + c) y d c3 c4 c (fun _ _ => rfl)
    refine ⟨hs, ?_⟩
    rw [hs]
    exact hermint_shift n x (fun j => x j + c) y d _ _ c xbar (fun _ _ => rfl)
  · intro H Dt TmaxHour Tmax TminHour Tmin Tair hDt
    exact ⟨fun off => HourlyT_offset_eq off H Dt hDt TmaxHour Tmax TminHour Tmin Tair,
      HourlyT_offset_eq _ H Dt hDt TmaxHour Tmax TminHour Tmin Tair⟩

/-- Witness for C18: `HOURSPERDAY = 24`, `Dt = 1`, the untruncated half step 1/2. -/
theorem offset_invariance_witness :
    HourlyT_with_offset (((1 : Int) : ℚ) / 2) 24 1 (fun _ => 18) (fun _ => (20 : ℚ))
        (fun _ => 6) (fun _ => 5) (fun _ => 0)
      = HourlyT 24 1 (fun _ => 18) (fun _ => (20 : ℚ)) (fun _ => 6) (fun _ => 5)
          (fun _ => 0) :=
  ((@offset_invariance ℚ _).2 24 1 (fun _ => 18) (fun _ => 20) (fun _ => 6) (fun _ => 5)
    (fun _ => 0) (by decide)).2

end Offset

/-! ## Postconditions of `calc_long_shortwave` -/

section RadiationPost

variable {α : Type} [LinearOrderedField α]

/-- The result of `calc_long_shortwave` by cases, with the clamping of line 75 and the
override `Ic = I0` for measured shortwave resolved in each branch. -/
theorem calc_result (M : Libm α) (K : Consts α) (s : Rad α)
    (air_temp vp theta_l theta_s phi jdate hour : α)
    (HAVE_SHORTWAVE HAVE_LONGWAVE HAVE_TSKC : Bool) :
    calc_long_shortwave M K s air_temp vp theta_l theta_s phi jdate hour HAVE_SHORTWAVE
        HAVE_LONGWAVE HAVE_TSKC
      = if 0 < calc_long_shortwave.I0 M K theta_l theta_s phi jdate hour then
          if HAVE_SHORTWAVE = false ∧ HAVE_TSKC = true then
            Except.ok
              { shortwave := max 0 (calc_long_shortwave.sw_of_tskc s.tskc
                  (calc_long_shortwave.Ic M
                    (calc_long_shortwave.sin_alpha M K theta_l theta_s phi jdate hour)
                    (calc_long_shortwave.I0 M K theta_l theta_s phi jdate hour))),
                longwave := if HAVE_LONGWAVE = false then
                    calc_long_shortwave.lw M K s.tskc vp air_temp else s.longwave,
                tskc := s.tskc, last_tskc := s.last_tskc }
          else if HAVE_SHORTWAVE = true ∧ HAVE_LONGWAVE = false then
            if max 0 s.shortwave < calc_long_shortwave.I0 M K theta_l theta_s phi jdate hour
            then
              Except.ok
                { shortwave := max 0 s.shortwave,
                  longwave := calc_long_shortwave.lw M K
                    (calc_long_shortwave.tskc_of_sw M (max 0 s.shortwave)
                      (calc_long_shortwave.I0 M K theta_l theta_s phi jdate hour))
                    vp air_temp,
                  tskc := calc_long_shortwave.tskc_of_sw M (max 0 s.shortwave)
                    (calc_long_shortwave.I0 M K theta_l theta_s phi jdate hour),
                  last_tskc := calc_long_shortwave.tskc_of_sw M (max 0 s.shortwave)
                    (calc_long_shortwave.I0 M K theta_l theta_s phi jdate hour) }
            else
              Except.ok
                { shortwave := max 0 s.shortwave,
                  longwave := calc_long_shortwave.lw M K s.last_tskc vp air_temp,
                  tskc := s.last_tskc, last_tskc := s.last_tskc }
          else
            Except.error "ERROR: To compute long and shortwave radiation, need TSKC (cloud cover fraction), or measured shortwave"
        else
          Except.ok
            { shortwave := if HAVE_SHORTWAVE = false then 0 else max 0 s.shortwave,
              longwave := if HAVE_LONGWAVE = false then
                  calc_long_shortwave.lw M K
                    (if HAVE_SHORTWAVE = true ∧ HAVE_TSKC = false then s.last_tskc
                      else s.tskc) vp air_temp
                else s.longwave,
              tskc := if HAVE_SHORTWAVE = true ∧ HAVE_TSKC = false then s.last_tskc
                else s.tskc,
              last_tskc := s.last_tskc } := by
  have z1 : (0.0 : α) = 0 := by norm_num
  have z2 : (0. : α) = 0 := by norm_num
  have hmax : ∀ v : α, (if v < 0 then 0 else v) = max 0 v := by
    intro v
    split_ifs with h
    · exact (max_eq_left h.le).symm
    · exact (max_eq_right (not_lt.mp h)).symm
  unfold calc_long_shortwave
  simp only [z1, z2, gt_iff_lt]
  cases HAVE_SHORTWAVE <;> cases HAVE_LONGWAVE <;> cases HAVE_TSKC <;>
    simp [hmax]

/-- The clear-sky value of source lines 77-78 written out. -/
theorem Ic_formula (M : Libm α) (sin_alpha I0 : α) :
    calc_long_shortwave.Ic M sin_alpha I0
      = I0 * M.exp (-2 * (0.128 - 0.054 * M.log10
            (M.pow (sin_alpha + 0.15 * M.pow (M.asin sin_alpha + 3.885) (-1.253)) (-1)))
          * M.pow (sin_alpha + 0.15 * M.pow (M.asin sin_alpha + 3.885) (-1.253)) (-1)) := by
  unfold calc_long_shortwave.Ic
  norm_num

/-- C11. Shortwave from cloud cover: for a call with `I0 > 0`, `HAVE_SHORTWAVE` false
and `HAVE_TSKC` true the routine returns, and the returned shortwave is
`max(0, Ic*(1 - 0.65*c*c/100))` with `c` the supplied cloud fraction and
`Ic = I0*exp(-2*(0.128 - 0.054*log10(m))*m)` the clear-sky irradiance; for `c = 0`
(the exponential being non-negative) the returned shortwave is `Ic`. -/
theorem shortwave_from_cloud_cover (M : Libm α) (K : Consts α) (s : Rad α)
    (air_temp vp theta_l theta_s phi jdate hour : α) (HAVE_LONGWAVE : Bool)
    (hI0 : 0 < calc_long_shortwave.I0 M K theta_l theta_s phi jdate hour) :
    ∃ r, calc_long_shortwave M K s air_temp vp theta_l theta_s phi jdate hour false
          HAVE_LONGWAVE true = Except.ok r
      ∧ r.shortwave
          = max 0 (calc_long_shortwave.Ic M
                (calc_long_shortwave.sin_alpha M K theta_l theta_s phi jdate hour)
                (calc_long_shortwave.I0 M K theta_l theta_s phi jdate hour)
              * (1 - 0.65 * s.tskc * s.tskc / 100))
      ∧ calc_long_shortwave.Ic M
            (calc_long_shortwave.sin_alpha M K theta_l theta_s phi jdate hour)
            (calc_long_shortwave.I0 M K theta_l theta_s phi jdate hour)
          = calc_long_shortwave.I0 M K theta_l theta_s phi jdate hour
            * M.exp (-2 * (0.128 - 0.054 * M.log10
                (M.pow (calc_long_shortwave.sin_alpha M K theta_l theta_s phi jdate hour
                  + 0.15 * M.pow (M.asin
                      (calc_long_shortwave.sin_alpha M K theta_l theta_s phi jdate hour)
                    + 3.885) (-1.253)) (-1)))
              * M.pow (calc_long_shortwave.sin_alpha M K theta_l theta_s phi jdate hour
                  + 0.15 * M.pow (M.asin
                      (calc_long_shortwave.sin_alpha M K theta_l theta_s phi jdate hour)
                    + 3.885) (-1.253)) (-1))
      ∧ (s.tskc = 0 → (∀ v, 0 ≤ M.exp v) →
          r.shortwave = calc_long_shortwave.Ic M
            (calc_long_shortwave.sin_alpha M K theta_l theta_s phi jdate hour)
            (calc_long_shortwave.I0 M K theta_l theta_s phi jdate hour)) := by
  have hsw : ∀ c Ic : α,
      calc_long_shortwave.sw_of_tskc c Ic = Ic * (1 - 0.65 * c * c / 100) := by
    intro c Ic
    unfold calc_long_shortwave.sw_of_tskc
    norm_num
    ring
  have hres := calc_result M K s air_temp vp theta_l theta_s phi jdate hour false
    HAVE_LONGWAVE true
  rw [if_pos hI0, if_pos ⟨rfl, rfl⟩] at hres
  refine ⟨_, hres, ?_, Ic_formula M _ _, ?_⟩
  · simp only [hsw]
  · intro hc hexp
    simp only [hsw, hc]
    have hnn : 0 ≤ calc_long_shortwave.Ic M
        (calc_long_shortwave.sin_alpha M K theta_l theta_s phi jdate hour)
        (calc_long_shortwave.I0 M K theta_l theta_s phi jdate hour) := by
      rw [Ic_formula]
      exact mul_nonneg hI0.le (hexp _)
    rw [max_eq_right (by simpa using hnn)]
    ring

/-- C12. Longwave postcondition: for every call that returns without error, with
`HAVE_LONGWAVE` true the longwave slot is unchanged, and with `HAVE_LONGWAVE` false
the returned longwave is
`(1 + 0.17*c*c)*(0.740 + 0.0049*vp*10)*STEFAN_B*(air_temp + KELVIN)^4 / LWAVE_COR`
with `c` the cloud fraction in the `tskc` slot on return, in every branch, day or
night (`pow(v, 4.0)` being the fourth power). -/
theorem longwave_postcondition (M : Libm α) (K : Consts α) (s : Rad α)
    (air_temp vp theta_l theta_s phi jdate hour : α)
    (HAVE_SHORTWAVE HAVE_LONGWAVE HAVE_TSKC : Bool)
    (hpow : M.pow (air_temp + K.KELVIN) 4 = (air_temp + K.KELVIN) ^ 4) (r : Rad α)
    (hr : calc_long_shortwave M K s air_temp vp theta_l theta_s phi jdate hour
      HAVE_SHORTWAVE HAVE_LONGWAVE HAVE_TSKC = Except.ok r) :
    (HAVE_LONGWAVE = true → r.longwave = s.longwave)
      ∧ (HAVE_LONGWAVE = false →
          r.longwave = (1 + 0.17 * r.tskc * r.tskc) * (0.740 + 0.0049 * vp * 10)
            * K.STEFAN_B * (air_temp + K.KELVIN) ^ 4 / K.LWAVE_COR) := by
  have hlw : ∀ c : α, calc_long_shortwave.lw M K c vp air_temp
      = (1 + 0.17 * c * c) * (0.740 + 0.0049 * vp * 10)
          * K.STEFAN_B * (air_temp + K.KELVIN) ^ 4 / K.LWAVE_COR := by
    intro c
    unfold calc_long_shortwave.lw
    have h4 : (4.0 : α) = 4 := by norm_num
    rw [h4, hpow]
    norm_num
  by_cases h1 : 0 < calc_long_shortwave.I0 M K theta_l theta_s phi jdate hour
  · by_cases h2 : HAVE_SHORTWAVE = false ∧ HAVE_TSKC = true
    · rw [calc_result, if_pos h1, if_pos h2] at hr
      cases hr
      refine ⟨fun h => ?_, fun h => ?_⟩
      · show (if HAVE_LONGWAVE = false then _ else s.longwave) = s.longwave
        rw [if_neg (by simp [h])]
      · show (if HAVE_LONGWAVE = false then _ else s.longwave) = _
        rw [if_pos h]
        exact hlw _
    · by_cases h3 : HAVE_SHORTWAVE = true ∧ HAVE_LONGWAVE = false
      · by_cases h4 : max 0 s.shortwave
            < calc_long_shortwave.I0 M K theta_l theta_s phi jdate hour
        · rw [calc_result, if_pos h1, if_neg h2, if_pos h3, if_pos h4] at hr
          cases hr
          exact ⟨fun h => by simp [h] at h3, fun _ => hlw _⟩
        · rw [calc_result, if_pos h1, if_neg h2, if_pos h3, if_neg h4] at hr
          cases hr
          exact ⟨fun h => by simp [h] at h3, fun _ => hlw _⟩
      · rw [calc_result, if_pos h1, if_neg h2, if_neg h3] at hr
        cases hr
  · rw [calc_result, if_neg h1] at hr
    cases hr
    refine ⟨fun h => ?_, fun h => ?_⟩
    · show (if HAVE_LONGWAVE = false then _ else s.longwave) = s.longwave
      rw [if_neg (by simp [h])]
    · show (if HAVE_LONGWAVE = false then _ else s.longwave) = _
      rw [if_pos h]
      exact hlw _

/-- C13. Lifecycle of the carried cloud fraction: a returning call overwrites
`last_tskc` exactly when `I0 > 0`, `HAVE_SHORTWAVE` is true, `HAVE_LONGWAVE` is false
and the measured shortwave is below the clear-sky value in use (`Ic = I0`); the new
carried value is then the returned cloud fraction `sqrt((1 - shortwave/Ic)/0.65)`,
`shortwave` being the returned shortwave; in every other returning call the carried
value is unchanged. -/
theorem carried_cloud_fraction_lifecycle (M : Libm α) (K : Consts α) (s : Rad α)
    (air_temp vp theta_l theta_s phi jdate hour : α)
    (HAVE_SHORTWAVE HAVE_LONGWAVE HAVE_TSKC : Bool) (r : Rad α)
    (hr : calc_long_shortwave M K s air_temp vp theta_l theta_s phi jdate hour
      HAVE_SHORTWAVE HAVE_LONGWAVE HAVE_TSKC = Except.ok r) :
    ((0 < calc_long_shortwave.I0 M K theta_l theta_s phi jdate hour
        ∧ HAVE_SHORTWAVE = true ∧ HAVE_LONGWAVE = false
        ∧ s.shortwave < calc_long_shortwave.I0 M K theta_l theta_s phi jdate hour) →
      r.last_tskc = r.tskc
        ∧ r.tskc = M.sqrt ((1 - r.shortwave
            / calc_long_shortwave.I0 M K theta_l theta_s phi jdate hour) / 0.65))
    ∧ (¬ (0 < calc_long_shortwave.I0 M K theta_l theta_s phi jdate hour
        ∧ HAVE_SHORTWAVE = true ∧ HAVE_LONGWAVE = false
        ∧ s.shortwave < calc_long_shortwave.I0 M K theta_l theta_s phi jdate hour) →
      r.last_tskc = s.last_tskc) := by
  have hq : ∀ a b : α,
      calc_long_shortwave.tskc_of_sw M a b = M.sqrt ((1 - a / b) / 0.65) := by
    intro a b
    unfold calc_long_shortwave.tskc_of_sw
    norm_num
  by_cases h1 : 0 < calc_long_shortwave.I0 M K theta_l theta_s phi jdate hour
  · by_cases h2 : HAVE_SHORTWAVE = false ∧ HAVE_TSKC = true
    · rw [calc_result, if_pos h1, if_pos h2] at hr
      cases hr
      exact ⟨fun h => by simp [h.2.1] at h2, fun _ => rfl⟩
    · by_cases h3 : HAVE_SHORTWAVE = true ∧ HAVE_LONGWAVE = false
      · by_cases h4 : max 0 s.shortwave
            < calc_long_shortwave.I0 M K theta_l theta_s phi jdate hour
        · rw [calc_result, if_pos h1, if_neg h2, if_pos h3, if_pos h4] at hr
          cases hr
          refine ⟨fun _ => ⟨rfl, hq _ _⟩, fun h => ?_⟩
          exact absurd ⟨h1, h3.1, h3.2, lt_of_le_of_lt (le_max_right 0 s.shortwave) h4⟩ h
        · rw [calc_result, if_pos h1, if_neg h2, if_pos h3, if_neg h4] at hr
          cases hr
          exact ⟨fun h => absurd (max_lt h1 h.2.2.2) h4, fun _ => rfl⟩
      · rw [calc_result, if_pos h1, if_neg h2, if_neg h3] at hr
        cases hr
  · rw [calc_result, if_neg h1] at hr
    cases hr
    exact ⟨fun h => absurd h.1 h1, fun _ => rfl⟩

/-- C20. Non-negative shortwave: every call that returns without error returns a
shortwave `≥ 0`; a negative measured shortwave is replaced by 0 although
`HAVE_SHORTWAVE` is true, and counts as 0 when the cloud fraction is derived; a
non-negative measured shortwave is returned unchanged; with the sun below the horizon
and `HAVE_SHORTWAVE` false the returned shortwave is 0. -/
theorem shortwave_nonneg (M : Libm α) (K : Consts α) (s : Rad α)
    (air_temp vp theta_l theta_s phi jdate hour : α)
    (HAVE_SHORTWAVE HAVE_LONGWAVE HAVE_TSKC : Bool) (r : Rad α)
    (hr : calc_long_shortwave M K s air_temp vp theta_l theta_s phi jdate hour
      HAVE_SHORTWAVE HAVE_LONGWAVE HAVE_TSKC = Except.ok r) :
    0 ≤ r.shortwave
      ∧ (HAVE_SHORTWAVE = true → s.shortwave < 0 →
          r.shortwave = 0
          ∧ (0 < calc_long_shortwave.I0 M K theta_l theta_s phi jdate hour →
              HAVE_LONGWAVE = false →
              r.tskc = M.sqrt ((1 - 0
                / calc_long_shortwave.I0 M K theta_l theta_s phi jdate hour) / 0.65)))
      ∧ (HAVE_SHORTWAVE = true → 0 ≤ s.shortwave → r.shortwave = s.shortwave)
      ∧ (¬ 0 < calc_long_shortwave.I0 M K theta_l theta_s phi jdate hour →
          HAVE_SHORTWAVE = false → r.shortwave = 0) := by
  have hq : ∀ a b : α,
      calc_long_shortwave.tskc_of_sw M a b = M.sqrt ((1 - a / b) / 0.65) := by
    intro a b
    unfold calc_long_shortwave.tskc_of_sw
    norm_num
  by_cases h1 : 0 < calc_long_shortwave.I0 M K theta_l theta_s phi jdate hour
  · by_cases h2 : HAVE_SHORTWAVE = false ∧ HAVE_TSKC = true
    · rw [calc_result, if_pos h1, if_pos h2] at hr
      cases hr
      exact ⟨le_max_left _ _, fun h => by simp [h] at h2, fun h => by simp [h] at h2,
        fun h => absurd h1 h⟩
    · by_cases h3 : HAVE_SHORTWAVE = true ∧ HAVE_LONGWAVE = false
      · by_cases h4 : max 0 s.shortwave
            < calc_long_shortwave.I0 M K theta_l theta_s phi jdate hour
        · rw [calc_result, if_pos h1, if_neg h2, if_pos h3, if_pos h4] at hr
          cases hr
          refine ⟨le_max_left _ _, fun _ hneg => ⟨max_eq_left hneg.le, fun _ _ => ?_⟩,
            fun _ hpos => max_eq_right hpos, fun h => absurd h1 h⟩
          show calc_long_shortwave.tskc_of_sw M (max 0 s.shortwave) _ = _
          rw [max_eq_left hneg.le, hq]
        · rw [calc_result, if_pos h1, if_neg h2, if_pos h3, if_neg h4] at hr
          cases hr
          refine ⟨le_max_left _ _, fun _ hneg => ⟨max_eq_left hneg.le, fun hpos _ => ?_⟩,
            fun _ hpos => max_eq_right hpos, fun h => absurd h1 h⟩
          exact absurd (by rw [max_eq_left hneg.le]; exact hpos) h4
      · rw [calc_result, if_pos h1, if_neg h2, if_neg h3] at hr
        cases hr
  · rw [calc_result, if_neg h1] at hr
    cases hr
    refine ⟨?_, fun h hneg => ⟨?_, fun hpos => absurd hpos h1⟩, fun h hpos => ?_,
      fun _ h => ?_⟩
    · show 0 ≤ (if HAVE_SHORTWAVE = false then (0 : α) else max 0 s.shortwave)
      split_ifs
      · exact le_rfl
      · exact le_max_left _ _
    · show (if HAVE_SHORTWAVE = false then (0 : α) else max 0 s.shortwave) = 0
      rw [if_neg (by simp [h]), max_eq_left hneg.le]
    · show (if HAVE_SHORTWAVE = false then (0 : α) else max 0 s.shortwave) = s.shortwave
      rw [if_neg (by simp [h]), max_eq_right hpos]
    · show (if HAVE_SHORTWAVE = false then (0 : α) else max 0 s.shortwave) = 0
      rw [if_pos h]

/-- The hour angle is one of the two formulas of source lines 66-69. -/
theorem tau_cases (M : Libm α) (K : Consts α) (theta_l theta_s hour : α) :
    calc_long_shortwave.tau M K theta_l theta_s hour
        = (hour - K.SOLARTIMEOFFSET - 12
            - (if |theta_l| = theta_l then (1 : α) else -1) / 15
              * (|theta_s| - |theta_l|)) * 15
      ∨ calc_long_shortwave.tau M K theta_l theta_s hour
        = (hour - K.SOLARTIMEOFFSET + 12
            - (if |theta_l| = theta_l then (1 : α) else -1) / 15
              * (|theta_s| - |theta_l|)) * 15 := by
  have h12 : (12.0 : α) = 12 := by norm_num
  have h15 : (15.0 : α) = 15 := by norm_num
  have h1 : (1.0 : α) = 1 := by norm_num
  unfold calc_long_shortwave.tau
  simp only [h12, h15, h1]
  split
  · exact Or.inl rfl
  · exact Or.inr rfl

/-- With a cosine of period `2*PI`, the cosine of the hour angle is the one of the
first formula whichever branch is taken. -/
theorem cos_tau_branch_free (M : Libm α) (K : Consts α)
    (hper : ∀ v, M.cos (v + 2 * K.PI) = M.cos v) (theta_l theta_s hour : α) :
    M.cos (calc_long_shortwave.tau M K theta_l theta_s hour * K.PI / 180.0)
      = M.cos ((hour - K.SOLARTIMEOFFSET - 12
            - (if |theta_l| = theta_l then (1 : α) else -1) / 15
              * (|theta_s| - |theta_l|)) * 15 * K.PI / 180) := by
  have h180 : (180.0 : α) = 180 := by norm_num
  rcases tau_cases M K theta_l theta_s hour with h | h
  · rw [h, h180]
  · rw [h, h180, ← hper ((hour - K.SOLARTIMEOFFSET - 12
        - (if |theta_l| = theta_l then (1 : α) else -1) / 15
          * (|theta_s| - |theta_l|)) * 15 * K.PI / 180)]
    congr 1
    ring

/-- With a cosine of period `2*PI`, `sin_alpha` does not depend on the boundary test
on `hour`, that is on the conversion `(float)` it uses. -/
theorem sin_alpha_branch_free (M : Libm α) (K : Consts α)
    (hper : ∀ v, M.cos (v + 2 * K.PI) = M.cos v) (f : α → α)
    (theta_l theta_s phi jdate hour : α) :
    calc_long_shortwave.sin_alpha { M with toFloat := f } K theta_l theta_s phi jdate hour
      = calc_long_shortwave.sin_alpha M K theta_l theta_s phi jdate hour := by
  unfold calc_long_shortwave.sin_alpha
  have h1 := cos_tau_branch_free M K hper theta_l theta_s hour
  have h2 := cos_tau_branch_free { M with toFloat := f } K hper theta_l theta_s hour
  simp only [] at h1 h2 ⊢
  rw [h1, h2]

/-- C19. The east/west hour-angle branch does not affect the result: the two formulas
for `tau` differ by exactly 360 degrees, so, the cosine having period `2*PI`,
`cos(tau*PI/180)` is the same for both, and `sin_alpha`, `I0` and the whole result of
the routine do not depend on which branch the boundary test on `hour` selects (the
test is the only use of the conversion `(float)`, here replaced by an arbitrary
`f`). -/
theorem hour_angle_branch_irrelevant (M : Libm α) (K : Consts α)
    (hper : ∀ v, M.cos (v + 2 * K.PI) = M.cos v) (s : Rad α)
    (air_temp vp theta_l theta_s phi jdate hour : α)
    (HAVE_SHORTWAVE HAVE_LONGWAVE HAVE_TSKC : Bool) :
    ((hour - K.SOLARTIMEOFFSET + 12
          - (if |theta_l| = theta_l then (1 : α) else -1) / 15
            * (|theta_s| - |theta_l|)) * 15
        - (hour - K.SOLARTIMEOFFSET - 12
          - (if |theta_l| = theta_l then (1 : α) else -1) / 15
            * (|theta_s| - |theta_l|)) * 15 = 360)
    ∧ (calc_long_shortwave.tau M K theta_l theta_s hour
          = (hour - K.SOLARTIMEOFFSET - 12
              - (if |theta_l| = theta_l then (1 : α) else -1) / 15
                * (|theta_s| - |theta_l|)) * 15
        ∨ calc_long_shortwave.tau M K theta_l theta_s hour
          = (hour - K.SOLARTIMEOFFSET + 12
              - (if |theta_l| = theta_l then (1 : α) else -1) / 15
                * (|theta_s| - |theta_l|)) * 15)
    ∧ M.cos ((hour - K.SOLARTIMEOFFSET + 12
          - (if |theta_l| = theta_l then (1 : α) else -1) / 15
            * (|theta_s| - |theta_l|)) * 15 * K.PI / 180)
        = M.cos ((hour - K.SOLARTIMEOFFSET - 12
          - (if |theta_l| = theta_l then (1 : α) else -1) / 15
            * (|theta_s| - |theta_l|)) * 15 * K.PI / 180)
    ∧ ∀ f : α → α,
        calc_long_shortwave.sin_alpha { M with toFloat := f } K theta_l theta_s phi jdate hour
          = calc_long_shortwave.sin_alpha M K theta_l theta_s phi jdate hour
        ∧ calc_long_shortwave.I0 { M with toFloat := f } K theta_l theta_s phi jdate hour
          = calc_long_shortwave.I0 M K theta_l theta_s phi jdate hour
        ∧ calc_long_shortwave { M with toFloat := f } K s air_temp vp theta_l theta_s phi
            jdate hour HAVE_SHORTWAVE HAVE_LONGWAVE HAVE_TSKC
          = calc_long_shortwave M K s air_temp vp theta_l theta_s phi jdate hour
            HAVE_SHORTWAVE HAVE_LONGWAVE HAVE_TSKC := by
  refine ⟨by ring, tau_cases M K theta_l theta_s hour, ?_, ?_⟩
  · rw [← hper ((hour - K.SOLARTIMEOFFSET - 12
        - (if |theta_l| = theta_l then (1 : α) else -1) / 15
          * (|theta_s| - |theta_l|)) * 15 * K.PI / 180)]
    congr 1
    ring
  · intro f
    have hsa := sin_alpha_branch_free M K hper f theta_l theta_s phi jdate hour
    have hI0 : calc_long_shortwave.I0 { M with toFloat := f } K theta_l theta_s phi jdate hour
        = calc_long_shortwave.I0 M K theta_l theta_s phi jdate hour := by
      unfold calc_long_shortwave.I0
      rw [hsa]
    refine ⟨hsa, hI0, ?_⟩
    unfold calc_long_shortwave
    rw [hsa, hI0]
    rfl

end RadiationPost


/-! ## Postconditions over the reals -/

section RealPost

/-- At local solar noon on the equator, day 172, `I0` is at most 2000. -/
theorem I0_noon_le (M : Libm ℝ) (K : Consts ℝ) (hc : M.cos = Real.cos)
    (hs : M.sin = Real.sin) (hf : M.toFloat = id) (hpi : K.PI = Real.pi) (hour : ℝ)
    (h : hour - K.SOLARTIMEOFFSET = 12) :
    calc_long_shortwave.I0 M K 0 0 0 172 hour ≤ 2000 := by
  unfold calc_long_shortwave.I0
  simp only [sin_alpha_noon M K hc hs hf hpi hour h, hc]
  have hr := radius_pos (2 * K.PI / 365 * (186 - 172))
  have hlow := Real.neg_one_le_cos (2 * K.PI / 365 * (186 - 172))
  have hd := Real.cos_le_one (23.45 * Real.pi / 180.0)
  rw [div_le_iff₀ hr, div_le_iff₀ hr]
  norm_num at hr hlow ⊢
  nlinarith

/-- C14, the failing input. At local solar noon on the equator at day 172 with
`HAVE_SHORTWAVE` true, `HAVE_LONGWAVE` false and `HAVE_TSKC` true, supplied cloud
fraction 3/10, carried value 7/10 and measured shortwave 2000 (above `I0`), the
routine returns with `tskc` overwritten by the carried value 7/10. -/
theorem supplied_cloud_cover_overwritten :
    calc_long_shortwave
        (Libm.mk Real.cos Real.sin Real.arcsin Real.exp (fun v => Real.log v / Real.log 10)
          Real.rpow Real.sqrt id)
        (Consts.mk Real.pi 0 5.6696e-8 273.15 1)
        { shortwave := 2000, longwave := 0, tskc := 3 / 10, last_tskc := 7 / 10 }
        10 1 0 0 0 172 12 true false true
      = Except.ok
        { shortwave := 2000,
          longwave := calc_long_shortwave.lw
            (Libm.mk Real.cos Real.sin Real.arcsin Real.exp (fun v => Real.log v / Real.log 10)
          Real.rpow Real.sqrt id)
            (Consts.mk Real.pi 0 5.6696e-8 273.15 1) (7 / 10) 1 10,
          tskc := 7 / 10, last_tskc := 7 / 10 } :=
  day_shortwave_ge _ _ _ 10 1 0 0 0 172 12 true
    (I0_noon_pos _ _ rfl rfl rfl rfl 12 (by norm_num))
    (I0_noon_le _ _ rfl rfl rfl rfl 12 (by norm_num))

/-- Witness for C11: local solar noon on the equator at day 172, cloud fraction 0. -/
theorem shortwave_from_cloud_cover_witness :
    ∃ r, calc_long_shortwave
          (Libm.mk Real.cos Real.sin Real.arcsin Real.exp (fun v => Real.log v / Real.log 10)
          Real.rpow Real.sqrt id)
          (Consts.mk Real.pi 0 5.6696e-8 273.15 1)
          { shortwave := 0, longwave := 0, tskc := 0, last_tskc := 0 }
          10 1 0 0 0 172 12 false false true = Except.ok r
      ∧ r.shortwave = calc_long_shortwave.Ic
          (Libm.mk Real.cos Real.sin Real.arcsin Real.exp (fun v => Real.log v / Real.log 10)
          Real.rpow Real.sqrt id)
          (calc_long_shortwave.sin_alpha
            (Libm.mk Real.cos Real.sin Real.arcsin Real.exp (fun v => Real.log v / Real.log 10)
          Real.rpow Real.sqrt id)
            (Consts.mk Real.pi 0 5.6696e-8 273.15 1) 0 0 0 172 12)
          (calc_long_shortwave.I0
            (Libm.mk Real.cos Real.sin Real.arcsin Real.exp (fun v => Real.log v / Real.log 10)
          Real.rpow Real.sqrt id)
            (Consts.mk Real.pi 0 5.6696e-8 273.15 1) 0 0 0 172 12) := by
  obtain ⟨r, h1, _, _, h4⟩ := shortwave_from_cloud_cover
    (Libm.mk Real.cos Real.sin Real.arcsin Real.exp (fun v => Real.log v / Real.log 10)
          Real.rpow Real.sqrt id)
    (Consts.mk Real.pi 0 5.6696e-8 273.15 1)
    { shortwave := 0, longwave := 0, tskc := 0, last_tskc := 0 }
    10 1 0 0 0 172 12 false (I0_noon_pos _ _ rfl rfl rfl rfl 12 (by norm_num))
  exact ⟨r, h1, h4 rfl (fun v => (Real.exp_pos v).le)⟩

/-- Witness for C12: the night call without any supplied quantity returns, and the
returned longwave is the formula at the cloud fraction in the `tskc` slot. -/
theorem longwave_postcondition_witness :
    calc_long_shortwave
        (Libm.mk Real.cos Real.sin Real.arcsin Real.exp (fun v => Real.log v / Real.log 10)
          Real.rpow Real.sqrt id)
        (Consts.mk Real.pi 0 5.6696e-8 273.15 1)
        { shortwave := 0, longwave := 0, tskc := 3 / 10, last_tskc := 7 / 10 }
        10 1 0 0 0 172 0 false false false
      = Except.ok
        { shortwave := 0,
          longwave := calc_long_shortwave.lw
            (Libm.mk Real.cos Real.sin Real.arcsin Real.exp (fun v => Real.log v / Real.log 10)
          Real.rpow Real.sqrt id)
            (Consts.mk Real.pi 0 5.6696e-8 273.15 1) (3 / 10) 1 10,
          tskc := 3 / 10, last_tskc := 7 / 10 }
    ∧ calc_long_shortwave.lw
        (Libm.mk Real.cos Real.sin Real.arcsin Real.exp (fun v => Real.log v / Real.log 10)
          Real.rpow Real.sqrt id)
        (Consts.mk Real.pi 0 5.6696e-8 273.15 1) (3 / 10) 1 10
      = (1 + 0.17 * (3 / 10) * (3 / 10)) * (0.740 + 0.0049 * 1 * 10)
          * (Consts.mk Real.pi 0 5.6696e-8 273.15 1).STEFAN_B
          * (10 + (Consts.mk Real.pi 0 5.6696e-8 273.15 1).KELVIN) ^ 4
          / (Consts.mk Real.pi 0 5.6696e-8 273.15 1).LWAVE_COR :=
  ⟨night_no_source_returns _ _ _ 10 1 0 0 0 172 0
      (not_lt.mpr (I0_midnight_neg _ _ rfl rfl rfl rfl 0 (by norm_num)).le),
   (longwave_postcondition
    (Libm.mk Real.cos Real.sin Real.arcsin Real.exp (fun v => Real.log v / Real.log 10)
          Real.rpow Real.sqrt id)
    (Consts.mk Real.pi 0 5.6696e-8 273.15 1)
    { shortwave := 0, longwave := 0, tskc := 3 / 10, last_tskc := 7 / 10 }
    10 1 0 0 0 172 0 false false false
    (by simpa using Real.rpow_natCast ((10 : ℝ) + 273.15) 4)
    { shortwave := 0,
      longwave := calc_long_shortwave.lw
        (Libm.mk Real.cos Real.sin Real.arcsin Real.exp (fun v => Real.log v / Real.log 10)
          Real.rpow Real.sqrt id)
        (Consts.mk Real.pi 0 5.6696e-8 273.15 1) (3 / 10) 1 10,
      tskc := 3 / 10, last_tskc := 7 / 10 }
    (night_no_source_returns _ _ _ 10 1 0 0 0 172 0
      (not_lt.mpr (I0_midnight_neg _ _ rfl rfl rfl rfl 0 (by norm_num)).le))).2 rfl⟩

/-- Witness for C13: the night call without any supplied quantity returns and leaves
the carried value 7/10 unchanged. -/
theorem carried_cloud_fraction_lifecycle_witness :
    calc_long_shortwave
        (Libm.mk Real.cos Real.sin Real.arcsin Real.exp (fun v => Real.log v / Real.log 10)
          Real.rpow Real.sqrt id)
        (Consts.mk Real.pi 0 5.6696e-8 273.15 1)
        { shortwave := 0, longwave := 0, tskc := 3 / 10, last_tskc := 7 / 10 }
        10 1 0 0 0 172 0 false false false
      = Except.ok
        { shortwave := 0,
          longwave := calc_long_shortwave.lw
            (Libm.mk Real.cos Real.sin Real.arcsin Real.exp (fun v => Real.log v / Real.log 10)
          Real.rpow Real.sqrt id)
            (Consts.mk Real.pi 0 5.6696e-8 273.15 1) (3 / 10) 1 10,
          tskc := 3 / 10, last_tskc := 7 / 10 }
    ∧ (Rad.mk (0 : ℝ)
          (calc_long_shortwave.lw
            (Libm.mk Real.cos Real.sin Real.arcsin Real.exp (fun v => Real.log v / Real.log 10)
          Real.rpow Real.sqrt id)
            (Consts.mk Real.pi 0 5.6696e-8 273.15 1) (3 / 10) 1 10)
          (3 / 10) (7 / 10)).last_tskc
        = (Rad.mk (0 : ℝ) 0 (3 / 10) (7 / 10)).last_tskc :=
  ⟨night_no_source_returns _ _ _ 10 1 0 0 0 172 0
      (not_lt.mpr (I0_midnight_neg _ _ rfl rfl rfl rfl 0 (by norm_num)).le),
   (carried_cloud_fraction_lifecycle
    (Libm.mk Real.cos Real.sin Real.arcsin Real.exp (fun v => Real.log v / Real.log 10)
          Real.rpow Real.sqrt id)
    (Consts.mk Real.pi 0 5.6696e-8 273.15 1)
    { shortwave := 0, longwave := 0, tskc := 3 / 10, last_tskc := 7 / 10 }
    10 1 0 0 0 172 0 false false false
    { shortwave := 0,
      longwave := calc_long_shortwave.lw
        (Libm.mk Real.cos Real.sin Real.arcsin Real.exp (fun v => Real.log v / Real.log 10)
          Real.rpow Real.sqrt id)
        (Consts.mk Real.pi 0 5.6696e-8 273.15 1) (3 / 10) 1 10,
      tskc := 3 / 10, last_tskc := 7 / 10 }
    (night_no_source_returns _ _ _ 10 1 0 0 0 172 0
      (not_lt.mpr (I0_midnight_neg _ _ rfl rfl rfl rfl 0 (by norm_num)).le))).2
    (fun h => by simp at h)⟩

/-- The night call with all three quantities supplied and a measured shortwave of -5:
the shortwave comes back as 0, the other slots unchanged. -/
theorem night_negative_shortwave :
    calc_long_shortwave
        (Libm.mk Real.cos Real.sin Real.arcsin Real.exp (fun v => Real.log v / Real.log 10)
          Real.rpow Real.sqrt id)
        (Consts.mk Real.pi 0 5.6696e-8 273.15 1)
        { shortwave := -5, longwave := 300, tskc := 3 / 10, last_tskc := 7 / 10 }
        10 1 0 0 0 172 0 true true true
      = Except.ok { shortwave := 0, longwave := 300, tskc := 3 / 10, last_tskc := 7 / 10 } := by
  rw [calc_result, if_neg
    (not_lt.mpr (I0_midnight_neg _ _ rfl rfl rfl rfl 0 (by norm_num)).le)]
  norm_num

/-- Witness for C20: the night call with a measured shortwave of -5 returns, with
shortwave 0. -/
theorem shortwave_nonneg_witness :
    calc_long_shortwave
        (Libm.mk Real.cos Real.sin Real.arcsin Real.exp (fun v => Real.log v / Real.log 10)
          Real.rpow Real.sqrt id)
        (Consts.mk Real.pi 0 5.6696e-8 273.15 1)
        { shortwave := -5, longwave := 300, tskc := 3 / 10, last_tskc := 7 / 10 }
        10 1 0 0 0 172 0 true true true
      = Except.ok { shortwave := 0, longwave := 300, tskc := 3 / 10, last_tskc := 7 / 10 }
    ∧ (Rad.mk (0 : ℝ) 300 (3 / 10) (7 / 10)).shortwave = 0 :=
  ⟨night_negative_shortwave,
   ((shortwave_nonneg
    (Libm.mk Real.cos Real.sin Real.arcsin Real.exp (fun v => Real.log v / Real.log 10)
          Real.rpow Real.sqrt id)
    (Consts.mk Real.pi 0 5.6696e-8 273.15 1)
    { shortwave := -5, longwave := 300, tskc := 3 / 10, last_tskc := 7 / 10 }
    10 1 0 0 0 172 0 true true true
    { shortwave := 0, longwave := 300, tskc := 3 / 10, last_tskc := 7 / 10 }
    night_negative_shortwave).2.1 rfl (by norm_num)).1⟩

/-- Witness for C19: over the reals, with a boundary test forced to the first branch
(`(float)hour` read as 18), `I0` at 3 o'clock on the equator is unchanged. -/
theorem hour_angle_branch_irrelevant_witness :
    calc_long_shortwave.I0
        (Libm.mk Real.cos Real.sin Real.arcsin Real.exp (fun v => Real.log v / Real.log 10)
          Real.rpow Real.sqrt (fun _ => 18))
        (Consts.mk Real.pi 0 5.6696e-8 273.15 1) 0 0 0 172 3
      = calc_long_shortwave.I0
        (Libm.mk Real.cos Real.sin Real.arcsin Real.exp (fun v => Real.log v / Real.log 10)
          Real.rpow Real.sqrt id)
        (Consts.mk Real.pi 0 5.6696e-8 273.15 1) 0 0 0 172 3 :=
  ((hour_angle_branch_irrelevant
    (Libm.mk Real.cos Real.sin Real.arcsin Real.exp (fun v => Real.log v / Real.log 10)
          Real.rpow Real.sqrt id)
    (Consts.mk Real.pi 0 5.6696e-8 273.15 1) (fun v => Real.cos_add_two_pi v)
    { shortwave := 0, longwave := 0, tskc := 0, last_tskc := 0 }
    10 1 0 0 0 172 3 false false false).2.2.2 (fun _ => 18)).2.1

end RealPost

end VIC
